import Mathlib

/-! Set-password orchestration (`pkg/manage/set_password.go`).

A shallow embedding of `Server.SetPassword`, `hashPassword` and `setPassword`.

* Go strings are `String`; error values are their messages (`err.Error()`),
  so `fmt.Errorf("ctx: %w", err)` is `"ctx: " ++ err`.
* The network is an explicit transport: a transition function on a world
  state that answers each request with a response or a transport error.
  Every function returns, next to its result, the new world state and the
  list of requests it handed to `http.DefaultClient.Do`.
* `encoding/json` is embedded as a scanner for the first JSON value of the
  response body followed by the struct decoding of
  `struct { Hash string "json:\"hash\"" }`.
-/

namespace Manage

/-! ## JSON values and the scanner of `encoding/json` -/

/-- JSON values. Numbers keep their literal text. -/
inductive JSON where
  | null
  | bool (b : Bool)
  | num (lit : List Char)
  | str (s : String)
  | arr (elems : List JSON)
  | obj (members : List (String × JSON))

/-- The ways scanning a JSON value can fail. `eof`: the input ended before
the value was complete. `malformed`: the character `c` cannot continue the
value; `context` says where the scanner was (the `SyntaxError` of
`encoding/json`, built by `scanner.error`). `fuel`: the step budget of the
embedding ran out (never with the budget `scanBudget`). -/
inductive ScanError where
  | eof
  | malformed (c : Char) (context : String)
  | fuel
  deriving DecidableEq, Repr

/-- Nesting limit of the scanner (`maxNestingDepth` in `encoding/json`). -/
def maxNestingDepth : Nat := 10000

/-- JSON white space (`isSpace` in `encoding/json`). -/
def isSpace (c : Char) : Bool :=
  c = ' ' || c = '\t' || c = '\r' || c = '\n'

/-- Drop leading white space. -/
def skipSpace : List Char → List Char
  | [] => []
  | c :: cs => if isSpace c then skipSpace cs else c :: cs

/-- Value of a hexadecimal digit. -/
def hexVal (c : Char) : Option Nat :=
  if '0' ≤ c ∧ c ≤ '9' then some (c.toNat - 48)
  else if 'a' ≤ c ∧ c ≤ 'f' then some (c.toNat - 87)
  else if 'A' ≤ c ∧ c ≤ 'F' then some (c.toNat - 55)
  else none

/-- The first character of a list that is not a hexadecimal digit. -/
def firstNonHex : List Char → Option Char
  | [] => none
  | c :: cs => if (hexVal c).isSome then firstNonHex cs else some c

/-- Value of four hexadecimal digits (`getu4`, on four digits). -/
def hex4 (a b c d : Char) : Nat :=
  (((hexVal a).getD 0 * 16 + (hexVal b).getD 0) * 16 + (hexVal c).getD 0) * 16 +
    (hexVal d).getD 0

/-- The replacement character U+FFFD. -/
def replacementChar : Char := Char.ofNat 0xFFFD

/-- Whether a code unit is a UTF-16 surrogate. -/
def isSurrogate (n : Nat) : Bool := 0xD800 ≤ n && n < 0xE000

/-- Combine a surrogate pair (`utf16.DecodeRune`); `none` when the two
code units are not a high surrogate followed by a low one. -/
def decodeSurrogates (hi lo : Nat) : Option Char :=
  if 0xD800 ≤ hi ∧ hi < 0xDC00 ∧ 0xDC00 ≤ lo ∧ lo < 0xE000 then
    some (Char.ofNat ((hi - 0xD800) * 1024 + (lo - 0xDC00) + 0x10000))
  else none

/-- The low half of a surrogate pair at the head of the input, with the
input after it. -/
def lowSurrogate (hi : Nat) : List Char → Option (Char × List Char)
  | '\\' :: 'u' :: a :: b :: c :: d :: rest =>
    match firstNonHex [a, b, c, d] with
    | none => (decodeSurrogates hi (hex4 a b c d)).map fun r => (r, rest)
    | some _ => none
  | _ => none

/-- One-character escapes of a JSON string. -/
def simpleEscape (c : Char) : Option Char :=
  if c = '"' then some '"'
  else if c = '\\' then some '\\'
  else if c = '/' then some '/'
  else if c = 'b' then some (Char.ofNat 8)
  else if c = 'f' then some (Char.ofNat 12)
  else if c = 'n' then some '\n'
  else if c = 'r' then some '\r'
  else if c = 't' then some '\t'
  else none

/-- Scan and unquote a JSON string whose opening quote has been consumed.
`acc` holds the characters read so far, in reverse. The step budget is one
per character. -/
def scanString : Nat → List Char → List Char → Except ScanError (String × List Char)
  | 0, _, _ => .error .fuel
  | _ + 1, [], _ => .error .eof
  | n + 1, c :: cs, acc =>
    if c = '"' then .ok (String.mk acc.reverse, cs)
    else if c = '\\' then
      match cs with
      | [] => .error .eof
      | e :: cs1 =>
        if e = 'u' then
          match cs1 with
          | a :: b :: x :: d :: cs2 =>
            match firstNonHex [a, b, x, d] with
            | some bad => .error (.malformed bad "in \\u hexadecimal character escape")
            | none =>
              if isSurrogate (hex4 a b x d) then
                match lowSurrogate (hex4 a b x d) cs2 with
                | some (ch, cs3) => scanString n cs3 (ch :: acc)
                | none => scanString n cs2 (replacementChar :: acc)
              else scanString n cs2 (Char.ofNat (hex4 a b x d) :: acc)
          | _ =>
            match firstNonHex cs1 with
            | some bad => .error (.malformed bad "in \\u hexadecimal character escape")
            | none => .error .eof
        else
          match simpleEscape e with
          | some ch => scanString n cs1 (ch :: acc)
          | none => .error (.malformed e "in string escape code")
    else if c.toNat < 0x20 then .error (.malformed c "in string literal")
    else scanString n cs (c :: acc)

/-- A decimal digit. -/
def isDigit (c : Char) : Bool := '0' ≤ c && c ≤ '9'

/-- Split off the leading decimal digits. -/
def spanDigits : List Char → List Char × List Char
  | [] => ([], [])
  | c :: cs =>
    if isDigit c then ((spanDigits cs).1.cons c, (spanDigits cs).2) else ([], c :: cs)

/-- At least one digit, as required after a decimal point or an exponent
mark; `context` is that of the error when another character stands there. -/
def scanDigits1 (context : String) (cs : List Char) :
    Except ScanError (List Char × List Char) :=
  match cs with
  | [] => .error .eof
  | c :: _ =>
    if isDigit c then .ok (spanDigits cs)
    else .error (.malformed c context)

/-- The optional exponent of a number. -/
def scanExponent (cs : List Char) : Except ScanError (List Char × List Char) :=
  match cs with
  | e :: cs1 =>
    if e = 'e' ∨ e = 'E' then
      match cs1 with
      | s :: cs2 =>
        if s = '+' ∨ s = '-' then
          (scanDigits1 "in exponent of numeric literal" cs2).map fun r => (e :: s :: r.1, r.2)
        else (scanDigits1 "in exponent of numeric literal" cs1).map fun r => (e :: r.1, r.2)
      | [] => .error .eof
    else .ok ([], cs)
  | [] => .ok ([], [])

/-- The optional fraction of a number. -/
def scanFraction (cs : List Char) : Except ScanError (List Char × List Char) :=
  match cs with
  | c :: cs1 =>
    if c = '.' then
      (scanDigits1 "after decimal point in numeric literal" cs1).map fun r => (c :: r.1, r.2)
    else .ok ([], cs)
  | [] => .ok ([], [])

/-- The integer part of a number, after the optional sign: a lone `0` or a
non-zero digit followed by digits. -/
def scanIntPart (cs : List Char) : Except ScanError (List Char × List Char) :=
  match cs with
  | [] => .error .eof
  | c :: cs1 =>
    if c = '0' then .ok ([c], cs1)
    else if isDigit c then .ok (spanDigits cs)
    else .error (.malformed c "in numeric literal")

/-- Scan a number literal; the result is its text and the input after it. -/
def scanNumber (cs : List Char) : Except ScanError (List Char × List Char) :=
  let signed : List Char × List Char :=
    match cs with
    | c :: cs1 => if c = '-' then ([c], cs1) else ([], cs)
    | [] => ([], [])
  match scanIntPart signed.2 with
  | .error e => .error e
  | .ok (i, r1) =>
    match scanFraction r1 with
    | .error e => .error e
    | .ok (f, r2) =>
      match scanExponent r2 with
      | .error e => .error e
      | .ok (x, r3) => .ok (signed.1 ++ i ++ f ++ x, r3)

/-- Scan the rest of the literal `true`, `false` or `null` after its first
letter: the expected letters one by one. -/
def scanLiteral (name : String) (v : JSON) :
    List Char → List Char → Except ScanError (JSON × List Char)
  | [], cs => .ok (v, cs)
  | _ :: _, [] => .error .eof
  | e :: es, c :: cs =>
    if c = e then scanLiteral name v es cs
    else .error (.malformed c
      ("in literal " ++ name ++ " (expecting \x27" ++ String.singleton e ++ "\x27)"))

mutual
/-- Scan the first JSON value of the input, skipping leading white space.
The result is the value and the input after it. `depth` is the number of
enclosing arrays and objects. -/
def scanValue : Nat → Nat → List Char → Except ScanError (JSON × List Char)
  | 0, _, _ => .error .fuel
  | n + 1, depth, cs =>
    match skipSpace cs with
    | [] => .error .eof
    | c :: rest =>
      if c = '{' then
        if maxNestingDepth < depth + 1 then .error (.malformed c "exceeded max depth")
        else
          match skipSpace rest with
          | [] => .error .eof
          | c1 :: rest1 =>
            if c1 = '}' then .ok (.obj [], rest1)
            else scanMembers n (depth + 1) (c1 :: rest1) []
      else if c = '[' then
        if maxNestingDepth < depth + 1 then .error (.malformed c "exceeded max depth")
        else
          match skipSpace rest with
          | [] => .error .eof
          | c1 :: rest1 =>
            if c1 = ']' then .ok (.arr [], rest1)
            else scanElems n (depth + 1) (c1 :: rest1) []
      else if c = '"' then
        (scanString (rest.length + 1) rest []).map fun r => (.str r.1, r.2)
      else if c = '-' ∨ isDigit c then
        (scanNumber (c :: rest)).map fun r => (.num r.1, r.2)
      else if c = 't' then scanLiteral "true" (.bool true) ['r', 'u', 'e'] rest
      else if c = 'f' then scanLiteral "false" (.bool false) ['a', 'l', 's', 'e'] rest
      else if c = 'n' then scanLiteral "null" .null ['u', 'l', 'l'] rest
      else .error (.malformed c "looking for beginning of value")
/-- Scan the elements of a non-empty array from the first element on. -/
def scanElems : Nat → Nat → List Char → List JSON → Except ScanError (JSON × List Char)
  | 0, _, _, _ => .error .fuel
  | n + 1, depth, cs, acc =>
    match scanValue n depth cs with
    | .error e => .error e
    | .ok (v, rest) =>
      match skipSpace rest with
      | [] => .error .eof
      | c :: rest1 =>
        if c = ',' then scanElems n depth rest1 (v :: acc)
        else if c = ']' then .ok (.arr (v :: acc).reverse, rest1)
        else .error (.malformed c "after array element")
/-- Scan the members of a non-empty object from the first key on. -/
def scanMembers : Nat → Nat → List Char → List (String × JSON) →
    Except ScanError (JSON × List Char)
  | 0, _, _, _ => .error .fuel
  | n + 1, depth, cs, acc =>
    match skipSpace cs with
    | [] => .error .eof
    | c :: rest =>
      if c = '"' then
        match scanString (rest.length + 1) rest [] with
        | .error e => .error e
        | .ok (k, rest1) =>
          match skipSpace rest1 with
          | [] => .error .eof
          | c1 :: rest2 =>
            if c1 = ':' then
              match scanValue n depth rest2 with
              | .error e => .error e
              | .ok (v, rest3) =>
                match skipSpace rest3 with
                | [] => .error .eof
                | c2 :: rest4 =>
                  if c2 = ',' then scanMembers n depth rest4 ((k, v) :: acc)
                  else if c2 = '}' then .ok (.obj ((k, v) :: acc).reverse, rest4)
                  else .error (.malformed c2 "after object key:value pair")
            else .error (.malformed c1 "after object key")
      else .error (.malformed c "looking for beginning of object key string")
end

/-- A step budget that scanning `cs` never exhausts. -/
def scanBudget (cs : List Char) : Nat := 2 * cs.length + 2

/-- Scan the first JSON value of `cs`. -/
def scanJSON (cs : List Char) : Except ScanError (JSON × List Char) :=
  scanValue (scanBudget cs) 0 cs

/-! ## Decoding into `struct { Hash string "json:\"hash\"" }` -/

/-- Case folding used to match object keys with struct fields: ASCII
letters to upper case, the long s (U+017F) to `S` and the Kelvin sign
(U+212A) to `K`. -/
def foldRune (c : Char) : Char :=
  if 'a' ≤ c ∧ c ≤ 'z' then Char.ofNat (c.toNat - 32)
  else if c = Char.ofNat 0x17F then 'S'
  else if c = Char.ofNat 0x212A then 'K'
  else c

/-- Folded form of a key. -/
def foldName (s : String) : List Char := s.data.map foldRune

/-- Whether an object key selects the field `Hash` (tag `hash`): an exact
match, or else a match up to case folding. -/
def matchesHashField (key : String) : Bool :=
  key = "hash" || foldName key = foldName "hash"

/-- The name `encoding/json` gives a kind of value in its type errors. -/
def jsonKind : JSON → String
  | .null => "null"
  | .bool _ => "bool"
  | .num _ => "number"
  | .str _ => "string"
  | .arr _ => "array"
  | .obj _ => "object"

/-- Decode the members of an object into the struct, in order. The state is
the field `Hash` and the first type error saved so far. A string sets the
field, `null` leaves it untouched, any other value is a type error; members
with other keys are skipped. -/
def decodeMembers : List (String × JSON) → String × Option String → String × Option String
  | [], st => st
  | (k, v) :: ms, (hash, err) =>
    if matchesHashField k then
      match v with
      | .str s => decodeMembers ms (s, err)
      | .null => decodeMembers ms (hash, err)
      | other =>
        decodeMembers ms (hash, err.orElse fun _ =>
          some ("json: cannot unmarshal " ++ jsonKind other ++
            " into Go struct field .hash of type string"))
    else decodeMembers ms (hash, err)

/-- Unmarshal a JSON value into a zero-valued struct and return its field
`Hash`: `null` leaves the struct untouched, an object is decoded member by
member, anything else is a type error. A field no member sets keeps its
zero value, the empty string. -/
def unmarshalHash (v : JSON) : Except String String :=
  match v with
  | .null => .ok ""
  | .obj ms =>
    match decodeMembers ms ("", none) with
    | (hash, none) => .ok hash
    | (_, some e) => .error e
  | other =>
    .error ("json: cannot unmarshal " ++ jsonKind other ++
      " into Go value of type struct \x7b Hash string \"json:\\\"hash\\\"\" \x7d")

/-! ## Error texts of `encoding/json` -/

/-- The first byte of the UTF-8 encoding of a character: the byte at which
the scanner, which reads bytes, stops. -/
def leadByte (c : Char) : Nat :=
  if c.toNat < 0x80 then c.toNat
  else if c.toNat < 0x800 then 0xC0 + c.toNat / 64
  else if c.toNat < 0x10000 then 0xE0 + c.toNat / 4096
  else 0xF0 + c.toNat / 262144

/-- Whether a rune below 256 is printable (`strconv.IsPrint`). -/
def isPrint (b : Nat) : Bool :=
  (0x20 ≤ b && b < 0x7F) || (0xA1 ≤ b && b ≤ 0xFF && b ≠ 0xAD)

/-- A byte as `strconv.Quote(string(c))` writes it between the quotes. -/
def quoteRune (b : Nat) : String :=
  if b = 34 then "\\\""
  else if b = 92 then "\\\\"
  else if isPrint b then String.singleton (Char.ofNat b)
  else if b = 7 then "\\a"
  else if b = 8 then "\\b"
  else if b = 12 then "\\f"
  else if b = 10 then "\\n"
  else if b = 13 then "\\r"
  else if b = 9 then "\\t"
  else if b = 11 then "\\v"
  else if b < 0x20 ∨ b = 0x7F then
    String.mk ['\\', 'x', Nat.digitChar (b / 16), Nat.digitChar (b % 16)]
  else
    String.mk ['\\', 'u', '0', '0', Nat.digitChar (b / 16), Nat.digitChar (b % 16)]

/-- A byte in single quotes, as error texts show it (`quoteChar`). -/
def quoteChar (b : Nat) : String :=
  if b = 39 then "\x27\\\x27\x27"
  else if b = 34 then "\x27\"\x27"
  else "\x27" ++ quoteRune b ++ "\x27"

/-- The text of a `SyntaxError`: the offending byte and the context. -/
def syntaxErrorText (c : Char) (context : String) : String :=
  "invalid character " ++ quoteChar (leadByte c) ++ " " ++ context

/-! ## HTTP -/

/-- The execution context of a call; it travels with each request. -/
structure Context where
  deadline : Option Nat
  deriving DecidableEq, Repr

/-- The parts of a `url.URL` the service addresses are built from. -/
structure URL where
  scheme : String
  host : String
  path : String
  deriving DecidableEq, Repr

/-- Server configuration: the values of `cfg.AuthURL()` and
`cfg.DatastoreWriterURL()`. -/
structure ServerConfig where
  authURL : URL
  datastoreWriterURL : URL
  deriving DecidableEq, Repr

/-- An outbound request. `header` holds the explicitly set header fields. -/
structure Request where
  ctx : Context
  method : String
  url : URL
  header : List (String × String)
  body : String
  deriving DecidableEq, Repr

/-- A response body as a reader: it yields `data` and then ends, either
regularly (`readErr = none`) or with a read error. -/
structure Body where
  data : String
  readErr : Option String
  deriving DecidableEq, Repr

/-- A received response: status code, status line and body. -/
structure Response where
  statusCode : Int
  status : String
  body : Body
  deriving DecidableEq, Repr

/-- The world outside the process. `urlError` is the error with which
`http.NewRequestWithContext` rejects an address, if it does; `roundTrip` is
`http.DefaultClient.Do`: from a state of the world and a request to a
response or a transport error, and the next state. -/
structure Env (σ : Type) where
  urlError : URL → Option String
  roundTrip : σ → Request → Except String Response × σ

/-- What a call leaves behind: its result, the state of the world and the
requests it handed to the transport, in order. -/
structure Outcome (σ α : Type) where
  result : Except String α
  world : σ
  sent : List Request

/-- Build a request (`http.NewRequestWithContext`) for the address
`reqURL.String()`; the request keeps the address as a value, and a fresh
request has no header fields. -/
def NewRequestWithContext {σ : Type} (env : Env σ) (ctx : Context) (method : String)
    (url : URL) (body : String) : Except String Request :=
  match env.urlError url with
  | some e => .error e
  | none => .ok { ctx := ctx, method := method, url := url, header := [], body := body }

/-- Set a header field (`Header.Set`), replacing any value it had. -/
def Request.setHeader (req : Request) (key value : String) : Request :=
  { req with header := (req.header.filter fun kv => kv.1 ≠ key) ++ [(key, value)] }

/-- Read a body to its end (`io.ReadAll`): the data and the read error. -/
def ReadAll (b : Body) : String × Option String := (b.data, b.readErr)

/-- Whether a JSON value is neither an array nor an object. -/
def isScalar : JSON → Bool
  | .arr _ => false
  | .obj _ => false
  | _ => true

/-- Read the first JSON value from a body and decode it into the struct
(`json.NewDecoder(body).Decode(&respBody)`), returning the field `Hash`.
Bytes after the first value are not looked at. An array or object is
complete at its closing bracket; any other value is complete at the next
byte or at the regular end of the body. The last case does not occur
(`scanJSON_ne_fuel`). -/
def Decode (body : Body) : Except String String :=
  match scanJSON body.data.data with
  | .ok (v, rest) =>
    match body.readErr with
    | some e => if isScalar v ∧ rest = [] then .error e else unmarshalHash v
    | none => unmarshalHash v
  | .error .eof =>
    match body.readErr with
    | some e => .error e
    | none => if skipSpace body.data.data = [] then .error "EOF" else .error "unexpected EOF"
  | .error (.malformed c context) => .error (syntaxErrorText c context)
  | .error .fuel => .error "scan budget exhausted"

/-! ## The set-password service -/

/-- Path of the hash endpoint of the auth service. -/
def authHashPath : String := "/internal/auth/hash"

/-- Path of the write endpoint of the datastore writer. -/
def datastorWritePath : String := "/internal/datastore/writer/write"

/-- The verb `%d` of `fmt` on an integer: its decimal digits, with a
leading minus sign when negative. -/
def formatInt : Int → String
  | Int.ofNat n => Nat.repr n
  | Int.negSucc n => "-" ++ Nat.repr (n + 1)

/-- The request body of the hash step:
`fmt.Sprintf("{\"toHash\": \"%s\"}", password)`. -/
def hashReqBody (password : String) : String :=
  "\x7b\"toHash\": \"" ++ password ++ "\"\x7d"

/-- The request body of the write step, `fmt.Sprintf` of the event template
with `%d` for the user id and `%s` for the hash. -/
def writeReqBody (userID : Int) (hash : String) : String :=
  "\x7b\"user_id\":0,\"information\":\x7b\x7d,\"locked_fields\":\x7b\x7d,\"events\":[\x7b\"type\":\"update\",\"fqid\":\"user/"
    ++ formatInt userID ++ "\",\"fields\":\x7b\"password\":\"" ++ hash ++ "\"\x7d\x7d]\x7d"

/-- Whether a status code lies outside [200, 300). -/
def badStatus (code : Int) : Bool := code < 200 || code ≥ 300

/-- The body text of a status error: the body as read, or a placeholder
when reading it fails. -/
def errorBody (b : Body) : String :=
  match ReadAll b with
  | (_, some _) => "[can not read body]"
  | (data, none) => data

/-- The request message `proto.SetPasswordRequest`; `UserID` is an int64. -/
structure SetPasswordRequest where
  UserID : Int
  Password : String
  deriving DecidableEq, Repr

/-- The empty response message `proto.SetPasswordResponse`. -/
structure SetPasswordResponse where
  deriving DecidableEq, Repr

/-- The server with its configuration. -/
structure Server where
  config : ServerConfig
  deriving DecidableEq, Repr

/-- The hash step: post the password to the auth service and return the
hash of the response. -/
def hashPassword {σ : Type} (env : Env σ) (w : σ) (ctx : Context) (cfg : ServerConfig)
    (password : String) : Outcome σ String :=
  let reqBody := hashReqBody password
  let reqURL := { cfg.authURL with path := authHashPath }
  match NewRequestWithContext env ctx "POST" reqURL reqBody with
  | .error err => ⟨.error ("creating request to auth service: " ++ err), w, []⟩
  | .ok req0 =>
    let req := req0.setHeader "Content-Type" "application/json"
    match env.roundTrip w req with
    | (.error err, w1) => ⟨.error ("sending request: " ++ err), w1, [req]⟩
    | (.ok resp, w1) =>
      if badStatus resp.statusCode then
        ⟨.error ("auth service returned " ++ resp.status ++ ": " ++ errorBody resp.body),
          w1, [req]⟩
      else
        match Decode resp.body with
        | .error err => ⟨.error ("decoding response: " ++ err), w1, [req]⟩
        | .ok hash => ⟨.ok hash, w1, [req]⟩

/-- The write step: post an update event that sets the password field of
the user to the given hash. -/
def setPassword {σ : Type} (env : Env σ) (w : σ) (ctx : Context) (cfg : ServerConfig)
    (userID : Int) (hash : String) : Outcome σ Unit :=
  let reqBody := writeReqBody userID hash
  let reqURL := { cfg.datastoreWriterURL with path := datastorWritePath }
  match NewRequestWithContext env ctx "POST" reqURL reqBody with
  | .error err => ⟨.error ("creating request: " ++ err), w, []⟩
  | .ok req0 =>
    let req := req0.setHeader "Content-Type" "application/json"
    match env.roundTrip w req with
    | (.error err, w1) => ⟨.error ("sending request: " ++ err), w1, [req]⟩
    | (.ok resp, w1) =>
      if badStatus resp.statusCode then
        ⟨.error ("datastore writer service returned " ++ resp.status ++ ": " ++
          errorBody resp.body), w1, [req]⟩
      else ⟨.ok (), w1, [req]⟩

/-- Hash the password of the request and write the hash to the user. The
conversion `int(in.UserID)` is the identity: `int` has 64 bits. -/
def Server.SetPassword {σ : Type} (s : Server) (env : Env σ) (w : σ) (ctx : Context)
    (req : SetPasswordRequest) : Outcome σ SetPasswordResponse :=
  let h := hashPassword env w ctx s.config req.Password
  match h.result with
  | .error err => ⟨.error ("hash password: " ++ err), h.world, h.sent⟩
  | .ok hash =>
    let p := setPassword env h.world ctx s.config req.UserID hash
    match p.result with
    | .error err => ⟨.error ("set password: " ++ err), p.world, h.sent ++ p.sent⟩
    | .ok _ => ⟨.ok {}, p.world, h.sent ++ p.sent⟩

/-- Number of requests in a log that went to the given path. -/
def callsTo (path : String) (log : List Request) : Nat :=
  (log.filter fun r => r.url.path = path).length

/-! ## Fixtures -/

/-- A configuration with an auth service and a datastore writer; the
address of the writer carries a path. -/
def demoConfig : ServerConfig :=
  { authURL := ⟨"http", "auth:9004", ""⟩,
    datastoreWriterURL := ⟨"http", "datastore-writer:9011", "/base"⟩ }

/-- A server with the fixture configuration. -/
def demoServer : Server := ⟨demoConfig⟩

/-- A context without deadline. -/
def demoCtx : Context := ⟨none⟩

/-- A stateless world in which every address is accepted, the auth endpoint
answers `auth` and every other endpoint answers `writer`. -/
def demoEnv (auth writer : Except String Response) : Env Unit :=
  { urlError := fun _ => none,
    roundTrip := fun w r => (if r.url.path = authHashPath then auth else writer, w) }

/-- A response `200 OK` with the given body. -/
def ok200 (body : String) : Response := ⟨200, "200 OK", ⟨body, none⟩⟩

/-- A response `500 Internal Server Error` with the given body. -/
def err500 (body : String) : Response := ⟨500, "500 Internal Server Error", ⟨body, none⟩⟩

/-- A password that closes the JSON string it is put in and adds a member:
the text `x", "a": "b`. -/
def injectedPassword : String := "x\", \"a\": \"b"

/-- A hash with a double quote in it: the text `a"b`. -/
def quotedHash : String := "a\"b"

/-- A scan result that is not a budget failure and, when it is a value,
leaves fewer than `k` characters of input. -/
def ScanGood {α : Type} (k : Nat) (r : Except ScanError (α × List Char)) : Prop :=
  match r with
  | .ok (_, rest) => rest.length < k
  | .error e => e ≠ .fuel

/-! ## Reading request bodies as JSON -/

/-- Parse a complete JSON text: one value, followed by white space only. -/
def parseJSON (s : String) : Option JSON :=
  match scanJSON s.data with
  | .ok (v, rest) => if skipSpace rest = [] then some v else none
  | .error _ => none

/-- The member of an object with the given key, the last one if the key
occurs more than once. -/
def JSON.member (key : String) : JSON → Option JSON
  | .obj ms => ms.foldl (fun found kv => if kv.1 = key then some kv.2 else found) none
  | _ => none

/-- The element of an array at the given index. -/
def JSON.elem (i : Nat) : JSON → Option JSON
  | .arr xs => xs.get? i
  | _ => none

/-- The text of a JSON string. -/
def JSON.asString : JSON → Option String
  | .str t => some t
  | _ => none

/-- The password a write request body carries: `events[0].fields.password`
of the body parsed as JSON, when the body is a JSON text with such a string. -/
def writtenPassword (body : String) : Option String :=
  (((((parseJSON body).bind (JSON.member "events")).bind (JSON.elem 0)).bind
    (JSON.member "fields")).bind (JSON.member "password")).bind JSON.asString

/-- A character that a JSON string holds as it is: neither the quote, nor
the backslash, nor a control character. -/
def plainChar (c : Char) : Bool :=
  c ≠ '"' && c ≠ '\\' && 0x20 ≤ c.toNat

/-- A string of characters that need no JSON escaping. -/
def plainString (s : String) : Bool := s.data.all plainChar

/-- A well-formed auth response body for a hash that needs no escaping:
the text of the object with the single member `hash`. -/
def hashRespBody (h : String) : String := "\x7b\"hash\":\"" ++ h ++ "\"\x7d"

/-- The request the hash step hands to the transport. -/
def hashRequest (ctx : Context) (cfg : ServerConfig) (password : String) : Request :=
  { ctx := ctx, method := "POST", url := { cfg.authURL with path := authHashPath },
    header := [("Content-Type", "application/json")], body := hashReqBody password }

/-- The request the write step hands to the transport. -/
def writeRequest (ctx : Context) (cfg : ServerConfig) (userID : Int) (hash : String) : Request :=
  { ctx := ctx, method := "POST", url := { cfg.datastoreWriterURL with path := datastorWritePath },
    header := [("Content-Type", "application/json")], body := writeReqBody userID hash }

/-- The message of the status error of the hash step. -/
def authStatusError (resp : Response) : String :=
  "auth service returned " ++ resp.status ++ ": " ++ errorBody resp.body

/-- The message of the status error of the write step. -/
def writerStatusError (resp : Response) : String :=
  "datastore writer service returned " ++ resp.status ++ ": " ++ errorBody resp.body

/-! ## The scan budget suffices -/

/-- Skipping white space does not lengthen the input. -/
theorem skipSpace_length_le (cs : List Char) : (skipSpace cs).length ≤ cs.length := by
  induction cs with
  | nil => simp [skipSpace]
  | cons c cs ih =>
    simp only [skipSpace]
    split
    · simp only [List.length_cons]; omega
    · simp

/-- What follows the first character after white space is shorter than the
input. -/
theorem skipSpace_cons_length {cs : List Char} {c : Char} {rest : List Char}
    (h : skipSpace cs = c :: rest) : rest.length + 1 ≤ cs.length := by
  have := skipSpace_length_le cs
  rw [h] at this
  simpa using this

/-- A good result stays good for a larger bound. -/
theorem ScanGood.mono {α : Type} {k m : Nat} {r : Except ScanError (α × List Char)}
    (h : ScanGood k r) (hkm : k ≤ m) : ScanGood m r := by
  cases r with
  | error e => exact h
  | ok p =>
    obtain ⟨v, rest⟩ := p
    exact Nat.lt_of_lt_of_le h hkm

/-- Mapping the value of a result keeps it good. -/
theorem ScanGood.map {α β : Type} {k : Nat} {r : Except ScanError (α × List Char)}
    (f : α × List Char → β × List Char) (hf : ∀ p, (f p).2 = p.2)
    (h : ScanGood k r) : ScanGood k (r.map f) := by
  cases r with
  | error e => exact h
  | ok p =>
    obtain ⟨v, rest⟩ := p
    have := hf (v, rest)
    simp only [Except.map, ScanGood] at *
    cases hfp : f (v, rest) with
    | mk a b =>
      rw [hfp] at this
      simp only at this
      subst this
      exact h

/-- Reading a low surrogate does not lengthen the input. -/
theorem lowSurrogate_length {hi : Nat} {cs : List Char} {ch : Char} {rest : List Char}
    (h : lowSurrogate hi cs = some (ch, rest)) : rest.length ≤ cs.length := by
  unfold lowSurrogate at h
  split at h
  · split at h
    · simp only [Option.map_eq_some'] at h
      obtain ⟨a, _, ha⟩ := h
      cases ha
      simp only [List.length_cons]
      omega
    · cases h
  · cases h

/-- A string scan with one step per character is good. -/
theorem scanString_good : ∀ (n : Nat) (cs acc : List Char), cs.length + 1 ≤ n →
    ScanGood cs.length (scanString n cs acc) := by
  intro n
  induction n with
  | zero => intro cs acc h; omega
  | succ n ih =>
    intro cs acc h
    cases cs with
    | nil => simp [scanString, ScanGood]
    | cons c cs =>
      simp only [List.length_cons] at h
      simp only [scanString]
      split
      · simp [ScanGood]
      · split
        · split
          · simp [ScanGood]
          · rename_i e cs1
            simp only [List.length_cons] at h
            split
            · split
              · rename_i a b x d cs2
                simp only [List.length_cons] at h
                split
                · simp [ScanGood]
                · split
                  · split
                    · rename_i ch cs3 hl
                      have := lowSurrogate_length hl
                      exact (ih cs3 _ (by omega)).mono (by simp only [List.length_cons]; omega)
                    · exact (ih cs2 _ (by omega)).mono (by simp only [List.length_cons]; omega)
                  · exact (ih cs2 _ (by omega)).mono (by simp only [List.length_cons]; omega)
              · split <;> simp [ScanGood]
            · split
              · exact (ih cs1 _ (by omega)).mono (by simp only [List.length_cons]; omega)
              · simp [ScanGood]
        · split
          · simp [ScanGood]
          · exact (ih cs _ (by omega)).mono (by simp only [List.length_cons]; omega)

/-- Splitting off digits does not lengthen the input. -/
theorem spanDigits_length (cs : List Char) : (spanDigits cs).2.length ≤ cs.length := by
  induction cs with
  | nil => simp [spanDigits]
  | cons c cs ih =>
    simp only [spanDigits]
    split
    · simp only [List.length_cons]; omega
    · simp

/-- Scanning digits is good. -/
theorem scanDigits1_good (context : String) (cs : List Char) :
    ScanGood (cs.length + 1) (scanDigits1 context cs) := by
  cases cs with
  | nil => simp [scanDigits1, ScanGood]
  | cons c tl =>
    simp only [scanDigits1]
    split
    · show (spanDigits (c :: tl)).2.length < _
      have := spanDigits_length (c :: tl)
      omega
    · simp [ScanGood]

/-- Scanning a fraction is good. -/
theorem scanFraction_good (cs : List Char) : ScanGood (cs.length + 1) (scanFraction cs) := by
  cases cs with
  | nil => simp [scanFraction, ScanGood]
  | cons c cs1 =>
    simp only [scanFraction]
    split
    · refine ScanGood.mono (ScanGood.map _ (fun _ => rfl) (scanDigits1_good _ cs1)) ?_
      simp only [List.length_cons]
      omega
    · simp [ScanGood]

/-- Scanning an exponent is good. -/
theorem scanExponent_good (cs : List Char) : ScanGood (cs.length + 1) (scanExponent cs) := by
  cases cs with
  | nil => simp [scanExponent, ScanGood]
  | cons e cs1 =>
    simp only [scanExponent]
    split
    · cases cs1 with
      | nil => simp [ScanGood]
      | cons s cs2 =>
        simp only
        split
        · refine ScanGood.mono (ScanGood.map _ (fun _ => rfl) (scanDigits1_good _ cs2)) ?_
          simp only [List.length_cons]
          omega
        · refine ScanGood.mono (ScanGood.map _ (fun _ => rfl) (scanDigits1_good _ (s :: cs2))) ?_
          simp only [List.length_cons]
          omega
    · simp [ScanGood]

/-- Scanning an integer part is good and consumes input. -/
theorem scanIntPart_good (cs : List Char) : ScanGood cs.length (scanIntPart cs) := by
  unfold scanIntPart
  split
  · simp [ScanGood]
  · split
    · simp [ScanGood]
    · split
      · rename_i c cs1 _ hd
        show (spanDigits (c :: cs1)).2.length < _
        have := spanDigits_length cs1
        simp only [spanDigits, hd, if_true, List.length_cons]
        omega
      · simp [ScanGood]

/-- Scanning a number is good and consumes input. -/
theorem scanNumber_good (cs : List Char) : ScanGood cs.length (scanNumber cs) := by
  unfold scanNumber
  have hs : (match cs with
      | c :: cs1 => if c = '-' then ([c], cs1) else ([], cs)
      | [] => (([], []) : List Char × List Char)).2.length ≤ cs.length := by
    split
    · split <;> simp
    · simp
  generalize (match cs with
      | c :: cs1 => if c = '-' then ([c], cs1) else ([], cs)
      | [] => (([], []) : List Char × List Char)) = signed at hs
  simp only
  have h1 := scanIntPart_good signed.2
  cases hi : scanIntPart signed.2 with
  | error e => rw [hi] at h1; simpa [ScanGood] using h1
  | ok p =>
    obtain ⟨i, r1⟩ := p
    rw [hi] at h1
    simp only [ScanGood] at h1
    simp only
    have h2 := scanFraction_good r1
    cases hf : scanFraction r1 with
    | error e => rw [hf] at h2; simpa [ScanGood] using h2
    | ok p =>
      obtain ⟨f, r2⟩ := p
      rw [hf] at h2
      simp only [ScanGood] at h2
      simp only
      have h3 := scanExponent_good r2
      cases hx : scanExponent r2 with
      | error e => rw [hx] at h3; simpa [ScanGood] using h3
      | ok p =>
        obtain ⟨x, r3⟩ := p
        rw [hx] at h3
        simp only [ScanGood] at h3
        simp only [ScanGood]
        omega

/-- Scanning the rest of a literal is good. -/
theorem scanLiteral_good (name : String) (v : JSON) (tail : List Char) :
    ∀ cs : List Char, ScanGood (cs.length + 1) (scanLiteral name v tail cs) := by
  induction tail with
  | nil => intro cs; simp [scanLiteral, ScanGood]
  | cons e es ih =>
    intro cs
    cases cs with
    | nil => simp [scanLiteral, ScanGood]
    | cons c cs =>
      simp only [scanLiteral]
      split
      · exact (ih cs).mono (by simp only [List.length_cons]; omega)
      · simp [ScanGood]

/-- With two steps per character and two to spare, scanning a value, the
elements of an array or the members of an object is good and consumes
input. -/
theorem scan_good (n : Nat) :
    (∀ (d : Nat) (cs : List Char), 2 * cs.length + 2 ≤ n →
      ScanGood cs.length (scanValue n d cs)) ∧
    (∀ (d : Nat) (cs : List Char) (acc : List JSON), 2 * cs.length + 3 ≤ n →
      ScanGood cs.length (scanElems n d cs acc)) ∧
    (∀ (d : Nat) (cs : List Char) (acc : List (String × JSON)), 2 * cs.length + 3 ≤ n →
      ScanGood cs.length (scanMembers n d cs acc)) := by
  induction n with
  | zero =>
    refine ⟨?_, ?_, ?_⟩ <;> intros <;> omega
  | succ n ih =>
    obtain ⟨ihV, ihE, ihM⟩ := ih
    refine ⟨?_, ?_, ?_⟩
    · intro d cs hn
      simp only [scanValue]
      cases hs : skipSpace cs with
      | nil => simp [ScanGood]
      | cons c rest =>
        have hl := skipSpace_cons_length hs
        simp only
        split
        · split
          · simp [ScanGood]
          · cases hs1 : skipSpace rest with
            | nil => simp [ScanGood]
            | cons c1 rest1 =>
              have hl1 := skipSpace_cons_length hs1
              simp only
              split
              · simp only [ScanGood]; omega
              · refine ScanGood.mono (ihM (d + 1) (c1 :: rest1) [] ?_) ?_ <;>
                  simp only [List.length_cons] <;> omega
        · split
          · split
            · simp [ScanGood]
            · cases hs1 : skipSpace rest with
              | nil => simp [ScanGood]
              | cons c1 rest1 =>
                have hl1 := skipSpace_cons_length hs1
                simp only
                split
                · simp only [ScanGood]; omega
                · refine ScanGood.mono (ihE (d + 1) (c1 :: rest1) [] ?_) ?_ <;>
                    simp only [List.length_cons] <;> omega
          · split
            · refine ScanGood.mono (ScanGood.map _ (fun _ => rfl)
                (scanString_good (rest.length + 1) rest [] (Nat.le_refl _))) ?_
              omega
            · split
              · refine ScanGood.mono (ScanGood.map _ (fun _ => rfl)
                  (scanNumber_good (c :: rest))) ?_
                simp only [List.length_cons]
                omega
              · split
                · exact ScanGood.mono (scanLiteral_good _ _ _ rest) hl
                · split
                  · exact ScanGood.mono (scanLiteral_good _ _ _ rest) hl
                  · split
                    · exact ScanGood.mono (scanLiteral_good _ _ _ rest) hl
                    · simp [ScanGood]
    · intro d cs acc hn
      simp only [scanElems]
      have hv := ihV d cs (by omega)
      cases hr : scanValue n d cs with
      | error e => rw [hr] at hv; simpa [ScanGood] using hv
      | ok p =>
        obtain ⟨v, rest⟩ := p
        rw [hr] at hv
        simp only [ScanGood] at hv
        simp only
        cases hs : skipSpace rest with
        | nil => simp [ScanGood]
        | cons c rest1 =>
          have hl := skipSpace_cons_length hs
          simp only
          split
          · refine ScanGood.mono (ihE d rest1 (v :: acc) ?_) ?_ <;> omega
          · split
            · simp only [ScanGood]; omega
            · simp [ScanGood]
    · intro d cs acc hn
      simp only [scanMembers]
      cases hs : skipSpace cs with
      | nil => simp [ScanGood]
      | cons c rest =>
        have hl := skipSpace_cons_length hs
        simp only
        split
        · have hk := scanString_good (rest.length + 1) rest [] (Nat.le_refl _)
          cases hr : scanString (rest.length + 1) rest [] with
          | error e => rw [hr] at hk; simpa [ScanGood] using hk
          | ok p =>
            obtain ⟨k, rest1⟩ := p
            rw [hr] at hk
            simp only [ScanGood] at hk
            simp only
            cases hs1 : skipSpace rest1 with
            | nil => simp [ScanGood]
            | cons c1 rest2 =>
              have hl1 := skipSpace_cons_length hs1
              simp only
              split
              · have hv := ihV d rest2 (by omega)
                cases hr2 : scanValue n d rest2 with
                | error e => rw [hr2] at hv; simpa [ScanGood] using hv
                | ok p =>
                  obtain ⟨v, rest3⟩ := p
                  rw [hr2] at hv
                  simp only [ScanGood] at hv
                  simp only
                  cases hs2 : skipSpace rest3 with
                  | nil => simp [ScanGood]
                  | cons c2 rest4 =>
                    have hl2 := skipSpace_cons_length hs2
                    simp only
                    split
                    · refine ScanGood.mono (ihM d rest4 ((k, v) :: acc) ?_) ?_ <;> omega
                    · split
                      · simp only [ScanGood]; omega
                      · simp [ScanGood]
              · simp [ScanGood]
        · simp [ScanGood]

/-- Scanning with the budget `scanBudget` never fails for lack of budget. -/
theorem scanJSON_ne_fuel (cs : List Char) : scanJSON cs ≠ .error .fuel := by
  have h := (scan_good (scanBudget cs)).1 0 cs (Nat.le_refl _)
  intro hf
  rw [scanJSON] at hf
  rw [hf] at h
  exact h rfl

/-! ## The two steps, case by case -/

/-- The hash step when its request cannot be built. -/
theorem hashPassword_urlError {σ : Type} (env : Env σ) (w : σ) (ctx : Context)
    (cfg : ServerConfig) (password e : String)
    (hu : env.urlError { cfg.authURL with path := authHashPath } = some e) :
    hashPassword env w ctx cfg password =
      ⟨.error ("creating request to auth service: " ++ e), w, []⟩ := by
  simp [hashPassword, NewRequestWithContext, hu]

/-- The hash step when the transport fails. -/
theorem hashPassword_transportError {σ : Type} (env : Env σ) (w w1 : σ) (ctx : Context)
    (cfg : ServerConfig) (password e : String)
    (hu : env.urlError { cfg.authURL with path := authHashPath } = none)
    (hr : env.roundTrip w (hashRequest ctx cfg password) = (.error e, w1)) :
    hashPassword env w ctx cfg password =
      ⟨.error ("sending request: " ++ e), w1, [hashRequest ctx cfg password]⟩ := by
  have hr' := hr
  simp only [hashRequest] at hr'
  simp [hashPassword, NewRequestWithContext, hu, Request.setHeader, hr', hashRequest]

/-- The hash step when a response arrives. -/
theorem hashPassword_response {σ : Type} (env : Env σ) (w w1 : σ) (ctx : Context)
    (cfg : ServerConfig) (password : String) (resp : Response)
    (hu : env.urlError { cfg.authURL with path := authHashPath } = none)
    (hr : env.roundTrip w (hashRequest ctx cfg password) = (.ok resp, w1)) :
    hashPassword env w ctx cfg password =
      ⟨if badStatus resp.statusCode then .error (authStatusError resp)
        else match Decode resp.body with
          | .error err => .error ("decoding response: " ++ err)
          | .ok hash => .ok hash,
        w1, [hashRequest ctx cfg password]⟩ := by
  have hr' := hr
  simp only [hashRequest] at hr'
  simp only [hashPassword, NewRequestWithContext, hu, Request.setHeader, hr', hashRequest,
    authStatusError, List.filter_nil, List.nil_append]
  split
  · rfl
  · split <;> simp_all

/-- The write step when its request cannot be built. -/
theorem setPassword_urlError {σ : Type} (env : Env σ) (w : σ) (ctx : Context)
    (cfg : ServerConfig) (userID : Int) (hash e : String)
    (hu : env.urlError { cfg.datastoreWriterURL with path := datastorWritePath } = some e) :
    setPassword env w ctx cfg userID hash = ⟨.error ("creating request: " ++ e), w, []⟩ := by
  simp [setPassword, NewRequestWithContext, hu]

/-- The write step when the transport fails. -/
theorem setPassword_transportError {σ : Type} (env : Env σ) (w w1 : σ) (ctx : Context)
    (cfg : ServerConfig) (userID : Int) (hash e : String)
    (hu : env.urlError { cfg.datastoreWriterURL with path := datastorWritePath } = none)
    (hr : env.roundTrip w (writeRequest ctx cfg userID hash) = (.error e, w1)) :
    setPassword env w ctx cfg userID hash =
      ⟨.error ("sending request: " ++ e), w1, [writeRequest ctx cfg userID hash]⟩ := by
  have hr' := hr
  simp only [writeRequest] at hr'
  simp [setPassword, NewRequestWithContext, hu, Request.setHeader, hr', writeRequest]

/-- The write step when a response arrives. -/
theorem setPassword_response {σ : Type} (env : Env σ) (w w1 : σ) (ctx : Context)
    (cfg : ServerConfig) (userID : Int) (hash : String) (resp : Response)
    (hu : env.urlError { cfg.datastoreWriterURL with path := datastorWritePath } = none)
    (hr : env.roundTrip w (writeRequest ctx cfg userID hash) = (.ok resp, w1)) :
    setPassword env w ctx cfg userID hash =
      ⟨if badStatus resp.statusCode then .error (writerStatusError resp) else .ok (),
        w1, [writeRequest ctx cfg userID hash]⟩ := by
  have hr' := hr
  simp only [writeRequest] at hr'
  simp only [setPassword, NewRequestWithContext, hu, Request.setHeader, hr', writeRequest,
    writerStatusError, List.filter_nil, List.nil_append]
  split <;> rfl

/-- Every run of the hash step takes one of three courses: the request cannot
be built, the transport fails, or a response arrives. -/
theorem hashPassword_cases {σ : Type} (env : Env σ) (w : σ) (ctx : Context)
    (cfg : ServerConfig) (password : String) :
    (∃ e, env.urlError { cfg.authURL with path := authHashPath } = some e ∧
      hashPassword env w ctx cfg password =
        ⟨.error ("creating request to auth service: " ++ e), w, []⟩) ∨
    (∃ e w1, env.urlError { cfg.authURL with path := authHashPath } = none ∧
      env.roundTrip w (hashRequest ctx cfg password) = (.error e, w1) ∧
      hashPassword env w ctx cfg password =
        ⟨.error ("sending request: " ++ e), w1, [hashRequest ctx cfg password]⟩) ∨
    (∃ resp w1, env.urlError { cfg.authURL with path := authHashPath } = none ∧
      env.roundTrip w (hashRequest ctx cfg password) = (.ok resp, w1) ∧
      hashPassword env w ctx cfg password =
        ⟨if badStatus resp.statusCode then .error (authStatusError resp)
          else match Decode resp.body with
            | .error err => .error ("decoding response: " ++ err)
            | .ok hash => .ok hash,
          w1, [hashRequest ctx cfg password]⟩) := by
  rcases hu : env.urlError { cfg.authURL with path := authHashPath } with _ | e
  · rcases hr : env.roundTrip w (hashRequest ctx cfg password) with ⟨r, w1⟩
    cases r with
    | error e =>
      exact Or.inr (Or.inl ⟨e, w1, rfl, rfl, hashPassword_transportError env w w1 ctx cfg password e hu hr⟩)
    | ok resp =>
      exact Or.inr (Or.inr ⟨resp, w1, rfl, rfl, hashPassword_response env w w1 ctx cfg password resp hu hr⟩)
  · exact Or.inl ⟨e, rfl, hashPassword_urlError env w ctx cfg password e hu⟩

/-- Every run of the write step takes one of three courses. -/
theorem setPassword_cases {σ : Type} (env : Env σ) (w : σ) (ctx : Context)
    (cfg : ServerConfig) (userID : Int) (hash : String) :
    (∃ e, env.urlError { cfg.datastoreWriterURL with path := datastorWritePath } = some e ∧
      setPassword env w ctx cfg userID hash = ⟨.error ("creating request: " ++ e), w, []⟩) ∨
    (∃ e w1, env.urlError { cfg.datastoreWriterURL with path := datastorWritePath } = none ∧
      env.roundTrip w (writeRequest ctx cfg userID hash) = (.error e, w1) ∧
      setPassword env w ctx cfg userID hash =
        ⟨.error ("sending request: " ++ e), w1, [writeRequest ctx cfg userID hash]⟩) ∨
    (∃ resp w1, env.urlError { cfg.datastoreWriterURL with path := datastorWritePath } = none ∧
      env.roundTrip w (writeRequest ctx cfg userID hash) = (.ok resp, w1) ∧
      setPassword env w ctx cfg userID hash =
        ⟨if badStatus resp.statusCode then .error (writerStatusError resp) else .ok (),
          w1, [writeRequest ctx cfg userID hash]⟩) := by
  rcases hu : env.urlError { cfg.datastoreWriterURL with path := datastorWritePath } with _ | e
  · rcases hr : env.roundTrip w (writeRequest ctx cfg userID hash) with ⟨r, w1⟩
    cases r with
    | error e =>
      exact Or.inr (Or.inl ⟨e, w1, rfl, rfl,
        setPassword_transportError env w w1 ctx cfg userID hash e hu hr⟩)
    | ok resp =>
      exact Or.inr (Or.inr ⟨resp, w1, rfl, rfl,
        setPassword_response env w w1 ctx cfg userID hash resp hu hr⟩)
  · exact Or.inl ⟨e, rfl, setPassword_urlError env w ctx cfg userID hash e hu⟩

/-- The hash step sends nothing or exactly its one request. -/
theorem hashPassword_sent {σ : Type} (env : Env σ) (w : σ) (ctx : Context)
    (cfg : ServerConfig) (password : String) :
    (hashPassword env w ctx cfg password).sent = [] ∨
      (hashPassword env w ctx cfg password).sent = [hashRequest ctx cfg password] := by
  rcases hashPassword_cases env w ctx cfg password with ⟨e, _, h⟩ | ⟨e, w1, _, _, h⟩ | ⟨r, w1, _, _, h⟩
  · exact Or.inl (by rw [h])
  · exact Or.inr (by rw [h])
  · exact Or.inr (by rw [h])

/-- A hash step that succeeds has sent its one request. -/
theorem hashPassword_sent_of_ok {σ : Type} (env : Env σ) (w : σ) (ctx : Context)
    (cfg : ServerConfig) (password hash : String)
    (h : (hashPassword env w ctx cfg password).result = .ok hash) :
    (hashPassword env w ctx cfg password).sent = [hashRequest ctx cfg password] := by
  rcases hashPassword_cases env w ctx cfg password with ⟨e, _, h1⟩ | ⟨e, w1, _, _, h1⟩ | ⟨r, w1, _, _, h1⟩
  · rw [h1] at h; cases h
  · rw [h1]
  · rw [h1]

/-- The write step sends nothing or exactly its one request. -/
theorem setPassword_sent {σ : Type} (env : Env σ) (w : σ) (ctx : Context)
    (cfg : ServerConfig) (userID : Int) (hash : String) :
    (setPassword env w ctx cfg userID hash).sent = [] ∨
      (setPassword env w ctx cfg userID hash).sent = [writeRequest ctx cfg userID hash] := by
  rcases setPassword_cases env w ctx cfg userID hash with ⟨e, _, h⟩ | ⟨e, w1, _, _, h⟩ | ⟨r, w1, _, _, h⟩
  · exact Or.inl (by rw [h])
  · exact Or.inr (by rw [h])
  · exact Or.inr (by rw [h])

/-- No request of the hash step goes to the write path. -/
theorem hashPassword_callsTo_writer {σ : Type} (env : Env σ) (w : σ) (ctx : Context)
    (cfg : ServerConfig) (password : String) :
    callsTo datastorWritePath (hashPassword env w ctx cfg password).sent = 0 := by
  rcases hashPassword_sent env w ctx cfg password with h | h <;> rw [h] <;>
    simp [callsTo, hashRequest, authHashPath, datastorWritePath]

/-- The orchestration when the hash step fails. -/
theorem SetPassword_of_hash_error {σ : Type} (s : Server) (env : Env σ) (w : σ) (ctx : Context)
    (req : SetPasswordRequest) (e : String)
    (h : (hashPassword env w ctx s.config req.Password).result = .error e) :
    s.SetPassword env w ctx req =
      ⟨.error ("hash password: " ++ e), (hashPassword env w ctx s.config req.Password).world,
        (hashPassword env w ctx s.config req.Password).sent⟩ := by
  simp only [Server.SetPassword, h]

/-- The orchestration when the hash step succeeds. -/
theorem SetPassword_of_hash_ok {σ : Type} (s : Server) (env : Env σ) (w : σ) (ctx : Context)
    (req : SetPasswordRequest) (hash : String)
    (h : (hashPassword env w ctx s.config req.Password).result = .ok hash) :
    s.SetPassword env w ctx req =
      ⟨match (setPassword env (hashPassword env w ctx s.config req.Password).world ctx s.config
            req.UserID hash).result with
        | .error err => .error ("set password: " ++ err)
        | .ok _ => .ok {},
        (setPassword env (hashPassword env w ctx s.config req.Password).world ctx s.config
            req.UserID hash).world,
        hashRequest ctx s.config req.Password ::
          (setPassword env (hashPassword env w ctx s.config req.Password).world ctx s.config
            req.UserID hash).sent⟩ := by
  have hs := hashPassword_sent_of_ok env w ctx s.config req.Password hash h
  simp only [Server.SetPassword, h, hs]
  split <;> simp_all

/-- The message of a decode failure is never the message of a status
failure. -/
theorem decoding_ne_authStatusError (err : String) (resp : Response) :
    "decoding response: " ++ err ≠ authStatusError resp := by
  intro h
  have h1 := congrArg (fun t : String => t.data.head?) h
  simp [authStatusError, String.data_append] at h1

/-! ## Scanning strings that need no escaping -/

/-- A run of characters that need no escaping, closed by a quote, scans to
itself. -/
theorem scanString_plain (l : List Char) :
    ∀ (n : Nat) (acc rest : List Char), (∀ c ∈ l, plainChar c = true) → l.length + 1 ≤ n →
      scanString n (l ++ '"' :: rest) acc = .ok (String.mk (acc.reverse ++ l), rest) := by
  induction l with
  | nil =>
    intro n acc rest _ hn
    obtain ⟨m, rfl⟩ : ∃ m, n = m + 1 := ⟨n - 1, by simp at hn; omega⟩
    simp [scanString]
  | cons c l ih =>
    intro n acc rest hp hn
    obtain ⟨m, rfl⟩ : ∃ m, n = m + 1 := ⟨n - 1, by simp at hn; omega⟩
    have hc : plainChar c = true := hp c (by simp)
    simp only [plainChar, Bool.and_eq_true, decide_eq_true_eq, bne_iff_ne, ne_eq] at hc
    obtain ⟨⟨h1, h2⟩, h3⟩ := hc
    have h3' : ¬ c.toNat < 32 := by omega
    simp only [List.cons_append, scanString, h1, h2, h3', if_false]
    have := ih m (c :: acc) rest (fun d hd => hp d (by simp [hd])) (by simp at hn; omega)
    simpa using this

/-- The characters of the auth response body for a hash. -/
theorem hashRespBody_data (h : String) :
    (hashRespBody h).data =
      '{' :: '"' :: 'h' :: 'a' :: 's' :: 'h' :: '"' :: ':' :: '"' :: (h.data ++ ['"', '}']) := by
  rfl

/-- The auth response body for a hash that needs no escaping scans to the
object with the single member `hash`. -/
theorem scanValue_hashRespBody (h : String) (hp : plainString h = true) (n : Nat) :
    scanValue (n + 3) 0 (hashRespBody h).data = .ok (.obj [("hash", .str h)], []) := by
  have hp' : ∀ c ∈ h.data, plainChar c = true := by
    simpa [plainString, List.all_eq_true] using hp
  have key : ∀ (m : Nat) (rest : List Char), 5 ≤ m →
      scanString m ('h' :: 'a' :: 's' :: 'h' :: '"' :: rest) [] = .ok ("hash", rest) := by
    intro m rest hm
    have := scanString_plain ['h', 'a', 's', 'h'] m [] rest (by decide) (by simpa using hm)
    simpa using this
  have val : ∀ (m : Nat) (rest : List Char), h.data.length + 1 ≤ m →
      scanString m (h.data ++ '"' :: rest) [] = .ok (h, rest) := by
    intro m rest hm
    have := scanString_plain h.data m [] rest hp' hm
    simpa using this
  rw [hashRespBody_data]
  simp [scanValue, scanMembers, skipSpace, isSpace, maxNestingDepth, key, val, Except.map]

/-- Decoding the auth response body for a hash that needs no escaping
yields that hash, however the body ends. -/
theorem Decode_hashRespBody (b : Body) (h : String) (hp : plainString h = true)
    (hb : b.data = hashRespBody h) : Decode b = .ok h := by
  have hlen : scanBudget (hashRespBody h).data = (2 * (hashRespBody h).data.length - 1) + 3 := by
    rw [hashRespBody_data]
    simp only [scanBudget, List.length_cons]
    omega
  have hscan : scanJSON b.data.data = .ok (.obj [("hash", .str h)], []) := by
    rw [hb, scanJSON, hlen]
    exact scanValue_hashRespBody h hp _
  simp only [Decode, hscan]
  cases b.readErr <;>
    simp [isScalar, unmarshalHash, decodeMembers, matchesHashField]

/-- A body that does not begin with a well-formed JSON value does not
decode. -/
theorem Decode_of_scan_error (b : Body) (se : ScanError)
    (h : scanJSON b.data.data = .error se) : ∃ e, Decode b = .error e := by
  unfold Decode
  rw [h]
  cases se with
  | eof =>
    cases b.readErr with
    | some e => exact ⟨e, rfl⟩
    | none =>
      by_cases hs : skipSpace b.data.data = []
      · exact ⟨"EOF", by simp [hs]⟩
      · exact ⟨"unexpected EOF", by simp [hs]⟩
  | malformed c context => exact ⟨_, rfl⟩
  | fuel => exact ⟨_, rfl⟩

/-! ## Request bodies for strings that need no escaping -/

/-- The characters of the body of the hash request. -/
theorem hashReqBody_data (p : String) :
    (hashReqBody p).data =
      '{' :: '"' :: 't' :: 'o' :: 'H' :: 'a' :: 's' :: 'h' :: '"' :: ':' :: ' ' :: '"' ::
        (p.data ++ ['"', '}']) := by
  rfl

/-- For a password that needs no escaping the body of the hash request is
a JSON text: the object with the single member `toHash`, the password. -/
theorem parseJSON_hashReqBody (p : String) (hp : plainString p = true) :
    parseJSON (hashReqBody p) = some (.obj [("toHash", .str p)]) := by
  have hp' : ∀ c ∈ p.data, plainChar c = true := by
    simpa [plainString, List.all_eq_true] using hp
  have key : ∀ (m : Nat) (rest : List Char), 7 ≤ m →
      scanString m ('t' :: 'o' :: 'H' :: 'a' :: 's' :: 'h' :: '"' :: rest) [] =
        .ok ("toHash", rest) := by
    intro m rest hm
    have := scanString_plain ['t', 'o', 'H', 'a', 's', 'h'] m [] rest (by decide)
      (by simpa using hm)
    simpa using this
  have val : ∀ (m : Nat) (rest : List Char), p.data.length + 1 ≤ m →
      scanString m (p.data ++ '"' :: rest) [] = .ok (p, rest) := by
    intro m rest hm
    have := scanString_plain p.data m [] rest hp' hm
    simpa using this
  have hlen : scanBudget (hashReqBody p).data = (2 * (hashReqBody p).data.length - 1) + 3 := by
    rw [hashReqBody_data]
    simp only [scanBudget, List.length_cons]
    omega
  have hscan : scanJSON (hashReqBody p).data = .ok (.obj [("toHash", .str p)], []) := by
    rw [scanJSON, hlen, hashReqBody_data]
    simp [scanValue, scanMembers, skipSpace, isSpace, maxNestingDepth, key, val, Except.map]
  simp [parseJSON, hscan, skipSpace]

/-- Decimal digits need no escaping. -/
theorem digitChar_plain (k : Nat) (hk : k < 10) : plainChar (Nat.digitChar k) = true := by
  interval_cases k <;> decide

/-- The digits of a number need no escaping. -/
theorem toDigitsCore_plain (fuel : Nat) : ∀ (n : Nat) (ds : List Char),
    (∀ c ∈ ds, plainChar c = true) → ∀ c ∈ Nat.toDigitsCore 10 fuel n ds, plainChar c = true := by
  induction fuel with
  | zero => intro n ds hds; simpa [Nat.toDigitsCore] using hds
  | succ fuel ih =>
    intro n ds hds
    simp only [Nat.toDigitsCore]
    have hd : plainChar (Nat.digitChar (n % 10)) = true :=
      digitChar_plain _ (Nat.mod_lt _ (by decide))
    have hcons : ∀ c ∈ Nat.digitChar (n % 10) :: ds, plainChar c = true := by
      intro c hc
      rcases List.mem_cons.mp hc with h | h
      · rw [h]; exact hd
      · exact hds c h
    split
    · exact hcons
    · exact ih _ _ hcons

/-- The decimal form of a natural number needs no escaping. -/
theorem repr_plain (n : Nat) : ∀ c ∈ (Nat.repr n).data, plainChar c = true := by
  have : (Nat.repr n).data = Nat.toDigitsCore 10 (n + 1) n [] := rfl
  rw [this]
  exact toDigitsCore_plain _ _ _ (by simp)

/-- The decimal form of an integer needs no escaping. -/
theorem formatInt_plain (i : Int) : ∀ c ∈ (formatInt i).data, plainChar c = true := by
  cases i with
  | ofNat n => exact repr_plain n
  | negSucc n =>
    intro c hc
    have : (formatInt (Int.negSucc n)).data = '-' :: (Nat.repr (n + 1)).data := rfl
    rw [this] at hc
    rcases List.mem_cons.mp hc with h | h
    · rw [h]; decide
    · exact repr_plain _ c h

/-- A run of characters that need no escaping scans to itself under the
budget the value scanner gives it. -/
theorem scanString_budget (l rest : List Char) (hl : ∀ c ∈ l, plainChar c = true) :
    scanString ((l ++ '"' :: rest).length + 1) (l ++ '"' :: rest) [] =
      .ok (String.mk l, rest) := by
  have := scanString_plain l ((l ++ '"' :: rest).length + 1) [] rest hl
    (by simp only [List.length_append, List.length_cons]; omega)
  simpa using this

/-- A quoted run of characters that need no escaping scans to a string
value. -/
theorem scanValue_str (n d : Nat) (l rest : List Char) (hl : ∀ c ∈ l, plainChar c = true) :
    scanValue (n + 1) d ('"' :: (l ++ '"' :: rest)) = .ok (.str (String.mk l), rest) := by
  have hs := scanString_plain l (l.length + (rest.length + 1) + 1) [] rest hl (by omega)
  simp only [List.reverse_nil, List.nil_append] at hs
  simp [scanValue, skipSpace, isSpace, hs, Except.map]

/-- One member of an object: a key that needs no escaping, a colon, and
whatever value follows. -/
theorem scanMembers_step (n d : Nat) (k vs : List Char) (acc : List (String × JSON))
    (hk : ∀ c ∈ k, plainChar c = true) :
    scanMembers (n + 1) d ('"' :: (k ++ '"' :: ':' :: vs)) acc =
      match scanValue n d vs with
      | .error e => .error e
      | .ok (v, rest3) =>
        match skipSpace rest3 with
        | [] => .error .eof
        | c2 :: rest4 =>
          if c2 = ',' then scanMembers n d rest4 ((String.mk k, v) :: acc)
          else if c2 = '}' then .ok (.obj ((String.mk k, v) :: acc).reverse, rest4)
          else .error (.malformed c2 "after object key:value pair") := by
  have hs := scanString_plain k (k.length + (vs.length + 1 + 1) + 1) [] (':' :: vs) hk (by omega)
  simp only [List.reverse_nil, List.nil_append] at hs
  simp [scanMembers, skipSpace, isSpace, hs]

/-- An object that opens with a quoted key. -/
theorem scanValue_obj (n d : Nat) (rest : List Char) (hd : d + 1 ≤ maxNestingDepth) :
    scanValue (n + 1) d ('{' :: '"' :: rest) = scanMembers n (d + 1) ('"' :: rest) [] := by
  have : ¬ maxNestingDepth < d + 1 := by omega
  simp [scanValue, skipSpace, isSpace, this]

/-- An empty object. -/
theorem scanValue_emptyObj (n d : Nat) (rest : List Char) (hd : d + 1 ≤ maxNestingDepth) :
    scanValue (n + 1) d ('{' :: '}' :: rest) = .ok (.obj [], rest) := by
  have : ¬ maxNestingDepth < d + 1 := by omega
  simp [scanValue, skipSpace, isSpace, this]

/-- An array whose first element is an object. -/
theorem scanValue_arr (n d : Nat) (rest : List Char) (hd : d + 1 ≤ maxNestingDepth) :
    scanValue (n + 1) d ('[' :: '{' :: rest) = scanElems n (d + 1) ('{' :: rest) [] := by
  have : ¬ maxNestingDepth < d + 1 := by omega
  simp [scanValue, skipSpace, isSpace, this]

/-- The number 0 followed by a comma. -/
theorem scanValue_zero (n d : Nat) (rest : List Char) :
    scanValue (n + 1) d ('0' :: ',' :: rest) = .ok (.num ['0'], ',' :: rest) := by
  simp [scanValue, skipSpace, isSpace, isDigit, scanNumber, scanIntPart, scanFraction,
    scanExponent, Except.map]

/-- The characters of the body of the write request, by keys and values. -/
theorem writeReqBody_data (i : Int) (h : String) :
    (writeReqBody i h).data =
      '{' :: '"' :: ("user_id".data ++ '"' :: ':' :: '0' :: ',' ::
      '"' :: ("information".data ++ '"' :: ':' :: '{' :: '}' :: ',' ::
      '"' :: ("locked_fields".data ++ '"' :: ':' :: '{' :: '}' :: ',' ::
      '"' :: ("events".data ++ '"' :: ':' :: '[' :: '{' ::
      '"' :: ("type".data ++ '"' :: ':' :: '"' :: ("update".data ++ '"' :: ',' ::
      '"' :: ("fqid".data ++ '"' :: ':' :: '"' :: (("user/" ++ formatInt i).data ++ '"' :: ',' ::
      '"' :: ("fields".data ++ '"' :: ':' :: '{' ::
      '"' :: ("password".data ++ '"' :: ':' :: '"' :: (h.data ++
      '"' :: '}' :: '}' :: ']' :: '}' :: []))))))))))) := by
  simp only [writeReqBody, String.data_append, List.append_assoc]
  rfl

/-- A comma is not white space. -/
theorem skipSpace_comma (rest : List Char) : skipSpace (',' :: rest) = ',' :: rest := by
  simp [skipSpace, isSpace]

/-- A closing brace is not white space. -/
theorem skipSpace_closeBrace (rest : List Char) : skipSpace ('}' :: rest) = '}' :: rest := by
  simp [skipSpace, isSpace]

/-- A closing bracket is not white space. -/
theorem skipSpace_closeBracket (rest : List Char) : skipSpace (']' :: rest) = ']' :: rest := by
  simp [skipSpace, isSpace]

/-- The object `fields` of the event scans to its one member. -/
theorem scanValue_fields (h : String) (hp : plainString h = true) (n : Nat) (rest : List Char) :
    scanValue (n + 3) 3 ('{' :: '"' :: ("password".data ++ '"' :: ':' :: '"' :: (h.data ++
      '"' :: '}' :: rest))) = .ok (.obj [("password", .str h)], rest) := by
  have hp' : ∀ c ∈ h.data, plainChar c = true := by
    simpa [plainString, List.all_eq_true] using hp
  rw [scanValue_obj _ 3 _ (by decide), scanMembers_step _ _ "password".data _ _ (by decide),
    scanValue_str _ _ h.data _ hp']
  simp [skipSpace_closeBrace]

/-- The event of the write request scans to its three members. -/
theorem scanValue_event (i : Int) (h : String) (hp : plainString h = true) (n : Nat)
    (rest : List Char) :
    scanValue (n + 8) 2 ('{' ::
      '"' :: ("type".data ++ '"' :: ':' :: '"' :: ("update".data ++ '"' :: ',' ::
      '"' :: ("fqid".data ++ '"' :: ':' :: '"' :: (("user/" ++ formatInt i).data ++ '"' :: ',' ::
      '"' :: ("fields".data ++ '"' :: ':' :: '{' ::
      '"' :: ("password".data ++ '"' :: ':' :: '"' :: (h.data ++
      '"' :: '}' :: '}' :: rest)))))))) =
      .ok (.obj [("type", .str "update"), ("fqid", .str ("user/" ++ formatInt i)),
          ("fields", .obj [("password", .str h)])], rest) := by
  have hfq : ∀ c ∈ ("user/" ++ formatInt i).data, plainChar c = true := by
    intro c hc
    rw [String.data_append] at hc
    rcases List.mem_append.mp hc with hc | hc
    · exact (by decide : ∀ c ∈ "user/".data, plainChar c = true) c hc
    · exact formatInt_plain i c hc
  rw [scanValue_obj _ 2 _ (by decide), scanMembers_step _ _ "type".data _ _ (by decide),
    scanValue_str _ _ "update".data _ (by decide)]
  simp only [skipSpace_comma, if_true]
  rw [scanMembers_step _ _ "fqid".data _ _ (by decide),
    scanValue_str _ _ ("user/" ++ formatInt i).data _ hfq]
  simp only [skipSpace_comma, if_true]
  rw [scanMembers_step _ _ "fields".data _ _ (by decide), scanValue_fields h hp]
  simp only [skipSpace_closeBrace]
  rfl

/-- The body of the write request scans to the event envelope. -/
theorem scanValue_writeReqBody (i : Int) (h : String) (hp : plainString h = true) (n : Nat) :
    scanValue (n + 20) 0 (writeReqBody i h).data =
      .ok (.obj [("user_id", .num ['0']), ("information", .obj []), ("locked_fields", .obj []),
        ("events", .arr [.obj [("type", .str "update"), ("fqid", .str ("user/" ++ formatInt i)),
          ("fields", .obj [("password", .str h)])]])], []) := by
  rw [writeReqBody_data, scanValue_obj _ 0 _ (by decide),
    scanMembers_step _ _ "user_id".data _ _ (by decide), scanValue_zero]
  simp only [skipSpace_comma, if_true]
  rw [scanMembers_step _ _ "information".data _ _ (by decide),
    scanValue_emptyObj _ 1 _ (by decide)]
  simp only [skipSpace_comma, if_true]
  rw [scanMembers_step _ _ "locked_fields".data _ _ (by decide),
    scanValue_emptyObj _ 1 _ (by decide)]
  simp only [skipSpace_comma, if_true]
  rw [scanMembers_step _ _ "events".data _ _ (by decide), scanValue_arr _ 1 _ (by decide),
    scanElems, scanValue_event i h hp]
  simp [skipSpace_closeBrace, skipSpace_closeBracket]

/-- For a hash that needs no escaping the body of the write request is a
JSON text: the event envelope with the fqid `user/` followed by the decimal
user id and the hash as password. -/
theorem parseJSON_writeReqBody (i : Int) (h : String) (hp : plainString h = true) :
    parseJSON (writeReqBody i h) =
      some (.obj [("user_id", .num ['0']), ("information", .obj []), ("locked_fields", .obj []),
        ("events", .arr [.obj [("type", .str "update"), ("fqid", .str ("user/" ++ formatInt i)),
          ("fields", .obj [("password", .str h)])]])]) := by
  have hlen : scanBudget (writeReqBody i h).data =
      (2 * (writeReqBody i h).data.length - 18) + 20 := by
    rw [writeReqBody_data]
    simp only [scanBudget, List.length_cons, List.length_append]
    omega
  simp [parseJSON, scanJSON, hlen, scanValue_writeReqBody i h hp, skipSpace]


/-- The password of the write request body for a hash that needs no
escaping is that hash. -/
theorem writtenPassword_writeReqBody (i : Int) (h : String) (hp : plainString h = true) :
    writtenPassword (writeReqBody i h) = some h := by
  simp [writtenPassword, parseJSON_writeReqBody i h hp, JSON.member, JSON.elem, JSON.asString]

/-! ## The claims -/

/-- C1: when the hash step fails, for whatever reason, `Server.SetPassword`
returns the error "hash password: " followed by the message of the hash
step, sends nothing beyond what the hash step sent, and no request goes to
the write path of the datastore writer. -/
theorem SetPassword_hash_failure {σ : Type} (s : Server) (env : Env σ) (w : σ) (ctx : Context)
    (req : SetPasswordRequest) (e : String)
    (h : (hashPassword env w ctx s.config req.Password).result = .error e) :
    (s.SetPassword env w ctx req).result = .error ("hash password: " ++ e) ∧
    (s.SetPassword env w ctx req).sent = (hashPassword env w ctx s.config req.Password).sent ∧
    callsTo datastorWritePath (s.SetPassword env w ctx req).sent = 0 := by
  rw [SetPassword_of_hash_error s env w ctx req e h]
  exact ⟨rfl, rfl, hashPassword_callsTo_writer env w ctx s.config req.Password⟩

/-- C1 at a concrete run: the auth service answers 500. -/
theorem SetPassword_hash_failure_witness :
    (demoServer.SetPassword (demoEnv (.ok (err500 "boom")) (.ok (ok200 ""))) () demoCtx
        ⟨7, "admin"⟩).result =
      .error ("hash password: " ++ "auth service returned 500 Internal Server Error: boom") ∧
    (demoServer.SetPassword (demoEnv (.ok (err500 "boom")) (.ok (ok200 ""))) () demoCtx
        ⟨7, "admin"⟩).sent =
      (hashPassword (demoEnv (.ok (err500 "boom")) (.ok (ok200 ""))) () demoCtx demoConfig
        "admin").sent ∧
    callsTo datastorWritePath
      (demoServer.SetPassword (demoEnv (.ok (err500 "boom")) (.ok (ok200 ""))) () demoCtx
        ⟨7, "admin"⟩).sent = 0 :=
  SetPassword_hash_failure demoServer (demoEnv (.ok (err500 "boom")) (.ok (ok200 ""))) ()
    demoCtx ⟨7, "admin"⟩ "auth service returned 500 Internal Server Error: boom" rfl

/-- C6: when the hash step succeeds and the write step, its request built,
fails (transport error or status outside [200, 300)), `Server.SetPassword`
returns the error "set password: " followed by the message of the write
step, and the whole invocation sent exactly two requests: one to the hash
path and then one to the write path. -/
theorem SetPassword_write_failure {σ : Type} (s : Server) (env : Env σ) (w : σ) (ctx : Context)
    (req : SetPasswordRequest) (hash e : String)
    (hh : (hashPassword env w ctx s.config req.Password).result = .ok hash)
    (hu : env.urlError { s.config.datastoreWriterURL with path := datastorWritePath } = none)
    (hw : (setPassword env (hashPassword env w ctx s.config req.Password).world ctx s.config
      req.UserID hash).result = .error e) :
    (s.SetPassword env w ctx req).result = .error ("set password: " ++ e) ∧
    (s.SetPassword env w ctx req).sent =
      [hashRequest ctx s.config req.Password, writeRequest ctx s.config req.UserID hash] ∧
    callsTo authHashPath (s.SetPassword env w ctx req).sent = 1 ∧
    callsTo datastorWritePath (s.SetPassword env w ctx req).sent = 1 := by
  have hsent : (setPassword env (hashPassword env w ctx s.config req.Password).world ctx s.config
      req.UserID hash).sent = [writeRequest ctx s.config req.UserID hash] := by
    rcases setPassword_cases env (hashPassword env w ctx s.config req.Password).world ctx
      s.config req.UserID hash with ⟨e1, h1, _⟩ | ⟨e1, w1, _, _, h1⟩ | ⟨r, w1, _, _, h1⟩
    · rw [hu] at h1; cases h1
    · rw [h1]
    · rw [h1]
  rw [SetPassword_of_hash_ok s env w ctx req hash hh, hw, hsent]
  refine ⟨rfl, rfl, ?_, ?_⟩ <;>
    simp [callsTo, hashRequest, writeRequest, authHashPath, datastorWritePath]

/-- C6 at a concrete run: the datastore writer answers 500. -/
theorem SetPassword_write_failure_witness :
    (demoServer.SetPassword (demoEnv (.ok (ok200 (hashRespBody "H1"))) (.ok (err500 "no"))) ()
        demoCtx ⟨7, "admin"⟩).result =
      .error ("set password: " ++
        "datastore writer service returned 500 Internal Server Error: no") ∧
    (demoServer.SetPassword (demoEnv (.ok (ok200 (hashRespBody "H1"))) (.ok (err500 "no"))) ()
        demoCtx ⟨7, "admin"⟩).sent =
      [hashRequest demoCtx demoConfig "admin", writeRequest demoCtx demoConfig 7 "H1"] ∧
    callsTo authHashPath
      (demoServer.SetPassword (demoEnv (.ok (ok200 (hashRespBody "H1"))) (.ok (err500 "no"))) ()
        demoCtx ⟨7, "admin"⟩).sent = 1 ∧
    callsTo datastorWritePath
      (demoServer.SetPassword (demoEnv (.ok (ok200 (hashRespBody "H1"))) (.ok (err500 "no"))) ()
        demoCtx ⟨7, "admin"⟩).sent = 1 :=
  SetPassword_write_failure demoServer
    (demoEnv (.ok (ok200 (hashRespBody "H1"))) (.ok (err500 "no"))) () demoCtx ⟨7, "admin"⟩
    "H1" "datastore writer service returned 500 Internal Server Error: no" rfl rfl rfl

/-- C7: for a response received by the hash step and a response received
by the write step, each step reports its status error exactly when the
status code is below 200 or at least 300; the message is
"auth service returned s: b", resp. "datastore writer service returned s: b",
with the status line s and the body b, or the placeholder
"[can not read body]" when reading the body fails; and for a status code in
[200, 300) the write step returns no error, whatever the body. -/
theorem status_error_iff {σ : Type} (env : Env σ) (w w1 v v1 : σ) (ctx : Context)
    (cfg : ServerConfig) (password : String) (userID : Int) (hash : String)
    (ra rw : Response)
    (hua : env.urlError { cfg.authURL with path := authHashPath } = none)
    (hra : env.roundTrip w (hashRequest ctx cfg password) = (.ok ra, w1))
    (huw : env.urlError { cfg.datastoreWriterURL with path := datastorWritePath } = none)
    (hrw : env.roundTrip v (writeRequest ctx cfg userID hash) = (.ok rw, v1)) :
    ((hashPassword env w ctx cfg password).result =
        .error ("auth service returned " ++ ra.status ++ ": " ++ errorBody ra.body) ↔
      (ra.statusCode < 200 ∨ ra.statusCode ≥ 300)) ∧
    ((setPassword env v ctx cfg userID hash).result =
        .error ("datastore writer service returned " ++ rw.status ++ ": " ++ errorBody rw.body) ↔
      (rw.statusCode < 200 ∨ rw.statusCode ≥ 300)) ∧
    (200 ≤ rw.statusCode ∧ rw.statusCode < 300 →
      (setPassword env v ctx cfg userID hash).result = .ok ()) ∧
    (∀ b : Body, b.readErr = none → errorBody b = b.data) ∧
    (∀ b : Body, b.readErr ≠ none → errorBody b = "[can not read body]") := by
  rw [hashPassword_response env w w1 ctx cfg password ra hua hra,
    setPassword_response env v v1 ctx cfg userID hash rw huw hrw]
  refine ⟨?_, ?_, ?_, ?_, ?_⟩
  · by_cases hb : badStatus ra.statusCode = true
    · have hb' := hb
      simp only [badStatus, Bool.or_eq_true, decide_eq_true_eq] at hb'
      simp [hb, authStatusError, hb']
    · have hb' := hb
      simp only [badStatus, Bool.or_eq_true, decide_eq_true_eq] at hb'
      simp only [hb, if_false, Bool.false_eq_true]
      constructor
      · intro h
        exfalso
        cases hd : Decode ra.body with
        | error err =>
          rw [hd] at h
          simp only [Except.error.injEq] at h
          exact decoding_ne_authStatusError err ra h
        | ok hash => rw [hd] at h; cases h
      · intro h; exact absurd h hb'
  · by_cases hb : badStatus rw.statusCode = true
    · have hb' := hb
      simp only [badStatus, Bool.or_eq_true, decide_eq_true_eq] at hb'
      simp [hb, writerStatusError, hb']
    · have hb' := hb
      simp only [badStatus, Bool.or_eq_true, decide_eq_true_eq] at hb'
      simp [hb, hb']
  · intro h
    have hb : badStatus rw.statusCode = false := by
      simp only [badStatus, Bool.or_eq_false_iff, decide_eq_false_iff_not]
      omega
    simp [hb]
  · intro b hb
    simp [errorBody, ReadAll, hb]
  · intro b hb
    cases hr : b.readErr with
    | none => exact absurd hr hb
    | some e => simp [errorBody, ReadAll, hr]

/-- C7 at a concrete pair of responses: the auth service answers 500 with
the body boom, the datastore writer answers 200 with an arbitrary body. -/
theorem status_error_iff_witness :
    ((hashPassword (demoEnv (.ok (err500 "boom")) (.ok (ok200 "whatever"))) () demoCtx
        demoConfig "admin").result =
        .error ("auth service returned " ++ "500 Internal Server Error" ++ ": " ++
          errorBody ⟨"boom", none⟩) ↔
      ((500 : Int) < 200 ∨ (500 : Int) ≥ 300)) ∧
    ((setPassword (demoEnv (.ok (err500 "boom")) (.ok (ok200 "whatever"))) () demoCtx
        demoConfig 7 "H1").result =
        .error ("datastore writer service returned " ++ "200 OK" ++ ": " ++
          errorBody ⟨"whatever", none⟩) ↔
      ((200 : Int) < 200 ∨ (200 : Int) ≥ 300)) ∧
    ((200 : Int) ≤ 200 ∧ (200 : Int) < 300 →
      (setPassword (demoEnv (.ok (err500 "boom")) (.ok (ok200 "whatever"))) () demoCtx
        demoConfig 7 "H1").result = .ok ()) :=
  have h := status_error_iff (demoEnv (.ok (err500 "boom")) (.ok (ok200 "whatever"))) () () () ()
    demoCtx demoConfig "admin" 7 "H1" (err500 "boom") (ok200 "whatever") rfl rfl rfl rfl
  ⟨h.1, h.2.1, h.2.2.1⟩

/-- C9: every request the hash step and the write step hand to the
transport has the method POST, the configured address with its path replaced
by "/internal/auth/hash", resp. "/internal/datastore/writer/write", and
Content-Type: application/json as its only explicitly set header; and each
step whose request can be built sends exactly one request. -/
theorem requests_shape {σ : Type} (env : Env σ) (w v : σ) (ctx : Context) (cfg : ServerConfig)
    (password : String) (userID : Int) (hash : String) :
    (∀ r ∈ (hashPassword env w ctx cfg password).sent,
      r.method = "POST" ∧ r.url.path = "/internal/auth/hash" ∧
      r.url.scheme = cfg.authURL.scheme ∧ r.url.host = cfg.authURL.host ∧
      r.header = [("Content-Type", "application/json")]) ∧
    (∀ r ∈ (setPassword env v ctx cfg userID hash).sent,
      r.method = "POST" ∧ r.url.path = "/internal/datastore/writer/write" ∧
      r.url.scheme = cfg.datastoreWriterURL.scheme ∧ r.url.host = cfg.datastoreWriterURL.host ∧
      r.header = [("Content-Type", "application/json")]) ∧
    (env.urlError { cfg.authURL with path := authHashPath } = none →
      (hashPassword env w ctx cfg password).sent.length = 1) ∧
    (env.urlError { cfg.datastoreWriterURL with path := datastorWritePath } = none →
      (setPassword env v ctx cfg userID hash).sent.length = 1) := by
  refine ⟨?_, ?_, ?_, ?_⟩
  · intro r hr
    rcases hashPassword_sent env w ctx cfg password with h | h <;> rw [h] at hr
    · cases hr
    · rw [List.mem_singleton] at hr
      subst hr
      exact ⟨rfl, rfl, rfl, rfl, rfl⟩
  · intro r hr
    rcases setPassword_sent env v ctx cfg userID hash with h | h <;> rw [h] at hr
    · cases hr
    · rw [List.mem_singleton] at hr
      subst hr
      exact ⟨rfl, rfl, rfl, rfl, rfl⟩
  · intro hu
    rcases hashPassword_cases env w ctx cfg password with
      ⟨e, h1, _⟩ | ⟨e, w1, _, _, h1⟩ | ⟨r, w1, _, _, h1⟩
    · rw [hu] at h1; cases h1
    · rw [h1]; rfl
    · rw [h1]; rfl
  · intro hu
    rcases setPassword_cases env v ctx cfg userID hash with
      ⟨e, h1, _⟩ | ⟨e, w1, _, _, h1⟩ | ⟨r, w1, _, _, h1⟩
    · rw [hu] at h1; cases h1
    · rw [h1]; rfl
    · rw [h1]; rfl

/-- C8: for a user id n ≥ 0 and a hash h of characters that need no JSON
escaping, when the auth service answers with a status in [200, 300) and the
body {"hash":"h"}, the invocation sends, after the hash request, one request
to the write endpoint whose body is exactly
{"user_id":0,"information":{},"locked_fields":{},"events":[{"type":"update","fqid":"user/n","fields":{"password":"h"}}]}
with n in decimal. -/
theorem SetPassword_round_trip {σ : Type} (s : Server) (env : Env σ) (w w1 : σ) (ctx : Context)
    (n : Nat) (password h : String) (resp : Response)
    (hp : plainString h = true)
    (hua : env.urlError { s.config.authURL with path := authHashPath } = none)
    (huw : env.urlError { s.config.datastoreWriterURL with path := datastorWritePath } = none)
    (hra : env.roundTrip w (hashRequest ctx s.config password) = (.ok resp, w1))
    (hst : 200 ≤ resp.statusCode ∧ resp.statusCode < 300)
    (hbody : resp.body.data = "\x7b\"hash\":\"" ++ h ++ "\"\x7d") :
    ∃ wr : Request,
      (s.SetPassword env w ctx ⟨Int.ofNat n, password⟩).sent =
        [hashRequest ctx s.config password, wr] ∧
      wr.url = { s.config.datastoreWriterURL with path := datastorWritePath } ∧
      wr.body =
        "\x7b\"user_id\":0,\"information\":\x7b\x7d,\"locked_fields\":\x7b\x7d,\"events\":[\x7b\"type\":\"update\",\"fqid\":\"user/"
          ++ Nat.repr n ++ "\",\"fields\":\x7b\"password\":\"" ++ h ++ "\"\x7d\x7d]\x7d" := by
  have hb : badStatus resp.statusCode = false := by
    simp only [badStatus, Bool.or_eq_false_iff, decide_eq_false_iff_not]
    omega
  have hd : Decode resp.body = .ok h := Decode_hashRespBody resp.body h hp hbody
  have hh : (hashPassword env w ctx s.config password).result = .ok h := by
    rw [hashPassword_response env w w1 ctx s.config password resp hua hra]
    simp [hb, hd]
  refine ⟨writeRequest ctx s.config (Int.ofNat n) h, ?_, rfl, rfl⟩
  rw [SetPassword_of_hash_ok s env w ctx ⟨Int.ofNat n, password⟩ h hh]
  rcases setPassword_cases env (hashPassword env w ctx s.config password).world ctx
    s.config (Int.ofNat n) h with ⟨e1, h1, _⟩ | ⟨e1, w2, _, _, h1⟩ | ⟨r, w2, _, _, h1⟩
  · rw [huw] at h1; cases h1
  · simp only [h1]
  · simp only [h1]

/-- C8 at the scenario of the specification: plaintext "admin", auth
response {"hash":"H1"}, user id 7. -/
theorem SetPassword_round_trip_witness :
    ∃ wr : Request,
      (demoServer.SetPassword (demoEnv (.ok (ok200 "\x7b\"hash\":\"H1\"\x7d")) (.ok (ok200 "")))
        () demoCtx ⟨Int.ofNat 7, "admin"⟩).sent = [hashRequest demoCtx demoConfig "admin", wr] ∧
      wr.url = { demoConfig.datastoreWriterURL with path := datastorWritePath } ∧
      wr.body =
        "\x7b\"user_id\":0,\"information\":\x7b\x7d,\"locked_fields\":\x7b\x7d,\"events\":[\x7b\"type\":\"update\",\"fqid\":\"user/"
          ++ Nat.repr 7 ++ "\",\"fields\":\x7b\"password\":\"" ++ "H1" ++ "\"\x7d\x7d]\x7d" :=
  SetPassword_round_trip demoServer
    (demoEnv (.ok (ok200 "\x7b\"hash\":\"H1\"\x7d")) (.ok (ok200 ""))) () () demoCtx 7 "admin"
    "H1" (ok200 "\x7b\"hash\":\"H1\"\x7d") (by decide) rfl rfl rfl (by decide) rfl

/-- C10: the password `x", "a": "b` is silently mis-encoded. Whenever the
auth service answers the hash request of an invocation for this password
with a status in [200, 300) and a body that decodes, and the datastore
writer answers with a status in [200, 300), that invocation reports success,
and the requests it sent are the hash request and then the write request for
the decoded hash. The body of that hash request is the valid JSON text
{"toHash": "x", "a": "b"}, whose member toHash is the string x and not the
password. -/
theorem SetPassword_misencoded_password {σ : Type} (s : Server) (env : Env σ) (w w1 w2 : σ)
    (ctx : Context) (userID : Int) (ra rw : Response) (hash : String)
    (hua : env.urlError { s.config.authURL with path := authHashPath } = none)
    (huw : env.urlError { s.config.datastoreWriterURL with path := datastorWritePath } = none)
    (hra : env.roundTrip w (hashRequest ctx s.config injectedPassword) = (.ok ra, w1))
    (hsa : 200 ≤ ra.statusCode ∧ ra.statusCode < 300)
    (hd : Decode ra.body = .ok hash)
    (hrw : env.roundTrip w1 (writeRequest ctx s.config userID hash) = (.ok rw, w2))
    (hsw : 200 ≤ rw.statusCode ∧ rw.statusCode < 300) :
    (s.SetPassword env w ctx ⟨userID, injectedPassword⟩).result = .ok {} ∧
    (s.SetPassword env w ctx ⟨userID, injectedPassword⟩).sent =
      [hashRequest ctx s.config injectedPassword, writeRequest ctx s.config userID hash] ∧
    (hashRequest ctx s.config injectedPassword).url.path = "/internal/auth/hash" ∧
    (hashRequest ctx s.config injectedPassword).body =
      "\x7b\"toHash\": \"x\", \"a\": \"b\"\x7d" ∧
    parseJSON (hashRequest ctx s.config injectedPassword).body =
      some (.obj [("toHash", .str "x"), ("a", .str "b")]) ∧
    ((parseJSON (hashRequest ctx s.config injectedPassword).body).bind
      (JSON.member "toHash")).bind JSON.asString = some "x" ∧
    "x" ≠ injectedPassword := by
  have hba : badStatus ra.statusCode = false := by
    simp only [badStatus, Bool.or_eq_false_iff, decide_eq_false_iff_not]
    omega
  have hbw : badStatus rw.statusCode = false := by
    simp only [badStatus, Bool.or_eq_false_iff, decide_eq_false_iff_not]
    omega
  have hh := hashPassword_response env w w1 ctx s.config injectedPassword ra hua hra
  simp only [hba, hd, Bool.false_eq_true, if_false] at hh
  have hres : (hashPassword env w ctx s.config injectedPassword).result = .ok hash := by
    rw [hh]
  have hw : (hashPassword env w ctx s.config injectedPassword).world = w1 := by rw [hh]
  have key := SetPassword_of_hash_ok s env w ctx ⟨userID, injectedPassword⟩ hash hres
  simp only [hw, setPassword_response env w1 w2 ctx s.config userID hash rw huw hrw, hbw,
    Bool.false_eq_true, if_false] at key
  refine ⟨by rw [key], by rw [key], rfl, rfl, rfl, rfl, by decide⟩

/-- C10 at a concrete run: both services answer 200. -/
theorem SetPassword_misencoded_password_witness :
    (demoServer.SetPassword (demoEnv (.ok (ok200 (hashRespBody "H1"))) (.ok (ok200 ""))) ()
      demoCtx ⟨7, injectedPassword⟩).result = .ok {} ∧
    (demoServer.SetPassword (demoEnv (.ok (ok200 (hashRespBody "H1"))) (.ok (ok200 ""))) ()
      demoCtx ⟨7, injectedPassword⟩).sent =
      [hashRequest demoCtx demoConfig injectedPassword,
        writeRequest demoCtx demoConfig 7 "H1"] ∧
    (hashRequest demoCtx demoConfig injectedPassword).url.path = "/internal/auth/hash" ∧
    (hashRequest demoCtx demoConfig injectedPassword).body =
      "\x7b\"toHash\": \"x\", \"a\": \"b\"\x7d" ∧
    parseJSON (hashRequest demoCtx demoConfig injectedPassword).body =
      some (.obj [("toHash", .str "x"), ("a", .str "b")]) ∧
    ((parseJSON (hashRequest demoCtx demoConfig injectedPassword).body).bind
      (JSON.member "toHash")).bind JSON.asString = some "x" ∧
    "x" ≠ injectedPassword :=
  SetPassword_misencoded_password demoServer
    (demoEnv (.ok (ok200 (hashRespBody "H1"))) (.ok (ok200 ""))) () () () demoCtx 7
    (ok200 (hashRespBody "H1")) (ok200 "") "H1" rfl rfl rfl (by decide) rfl rfl (by decide)

/-- C2, evaluated where it fails: the auth service answers 200 with the
well-formed body {"hash":"a\"b"}, whose hash is the text a"b, and the
datastore writer answers 200. `Server.SetPassword` succeeds, and the body it
sent to the writer carries the hash unescaped, "password":"a"b", so that it
is not a JSON text. -/
theorem SetPassword_quote_in_hash :
    Decode ⟨"\x7b\"hash\":\"a\\\"b\"\x7d", none⟩ = .ok quotedHash ∧
    (demoServer.SetPassword (demoEnv (.ok (ok200 "\x7b\"hash\":\"a\\\"b\"\x7d")) (.ok (ok200 "")))
      () demoCtx ⟨7, "admin"⟩).result = .ok {} ∧
    (demoServer.SetPassword (demoEnv (.ok (ok200 "\x7b\"hash\":\"a\\\"b\"\x7d")) (.ok (ok200 "")))
      () demoCtx ⟨7, "admin"⟩).sent.map Request.body =
      ["\x7b\"toHash\": \"admin\"\x7d",
       "\x7b\"user_id\":0,\"information\":\x7b\x7d,\"locked_fields\":\x7b\x7d,\"events\":[\x7b\"type\":\"update\",\"fqid\":\"user/7\",\"fields\":\x7b\"password\":\"a\"b\"\x7d\x7d]\x7d"] ∧
    parseJSON
      "\x7b\"user_id\":0,\"information\":\x7b\x7d,\"locked_fields\":\x7b\x7d,\"events\":[\x7b\"type\":\"update\",\"fqid\":\"user/7\",\"fields\":\x7b\"password\":\"a\"b\"\x7d\x7d]\x7d"
      = none :=
  ⟨rfl, rfl, rfl, rfl⟩

/-- C3, evaluated where it fails: for the password a"b the hash step sends
the body {"toHash": "a"b"}, which is not a JSON text. -/
theorem hashPassword_quote_in_password :
    (hashPassword (demoEnv (.ok (ok200 (hashRespBody "H1"))) (.ok (ok200 ""))) () demoCtx
      demoConfig "a\"b").sent.map Request.body = ["\x7b\"toHash\": \"a\"b\"\x7d"] ∧
    parseJSON "\x7b\"toHash\": \"a\"b\"\x7d" = none :=
  ⟨rfl, rfl⟩

/-- C5, as the code has it: every request of an invocation that goes to the
write path was sent after the hash step succeeded; and when the hash the
hash step returned is made of characters that need no JSON escaping, the
password of the write event (events[0].fields.password of the body parsed as
JSON) is exactly that hash, so it is non-empty whenever that hash is. -/
theorem SetPassword_writes_returned_hash {σ : Type} (s : Server) (env : Env σ) (w : σ)
    (ctx : Context) (req : SetPasswordRequest) (r : Request)
    (hr : r ∈ (s.SetPassword env w ctx req).sent)
    (hpath : r.url.path = datastorWritePath) :
    ∃ hash, (hashPassword env w ctx s.config req.Password).result = .ok hash ∧
      (plainString hash = true → writtenPassword r.body = some hash) ∧
      (plainString hash = true → hash ≠ "" →
        ∃ p, writtenPassword r.body = some p ∧ p ≠ "") := by
  have hne : (hashRequest ctx s.config req.Password).url.path ≠ datastorWritePath := by
    simp [hashRequest, authHashPath, datastorWritePath]
  cases hres : (hashPassword env w ctx s.config req.Password).result with
  | error e =>
    rw [SetPassword_of_hash_error s env w ctx req e hres] at hr
    rcases hashPassword_sent env w ctx s.config req.Password with h | h <;>
      simp only [h] at hr
    · cases hr
    · rw [List.mem_singleton] at hr
      subst hr
      exact absurd hpath hne
  | ok hash =>
    rw [SetPassword_of_hash_ok s env w ctx req hash hres] at hr
    simp only [List.mem_cons] at hr
    rcases hr with hr | hr
    · subst hr
      exact absurd hpath hne
    · rcases setPassword_sent env (hashPassword env w ctx s.config req.Password).world ctx
        s.config req.UserID hash with h | h <;> rw [h] at hr
      · cases hr
      · rw [List.mem_singleton] at hr
        subst hr
        have hw : ∀ hp : plainString hash = true,
            writtenPassword (writeRequest ctx s.config req.UserID hash).body = some hash :=
          fun hp => writtenPassword_writeReqBody req.UserID hash hp
        exact ⟨hash, rfl, hw, fun hp hn => ⟨hash, hw hp, hn⟩⟩

/-- C5 at a concrete run: the hash H1 is the one written. -/
theorem SetPassword_writes_returned_hash_witness :
    ∃ hash, (hashPassword (demoEnv (.ok (ok200 (hashRespBody "H1"))) (.ok (ok200 ""))) ()
        demoCtx demoConfig "admin").result = .ok hash ∧
      (plainString hash = true →
        writtenPassword (writeRequest demoCtx demoConfig 7 "H1").body = some hash) ∧
      (plainString hash = true → hash ≠ "" →
        ∃ p, writtenPassword (writeRequest demoCtx demoConfig 7 "H1").body = some p ∧ p ≠ "") :=
  SetPassword_writes_returned_hash demoServer
    (demoEnv (.ok (ok200 (hashRespBody "H1"))) (.ok (ok200 ""))) () demoCtx ⟨7, "admin"⟩
    (writeRequest demoCtx demoConfig 7 "H1") (by decide) rfl

set_option maxRecDepth 8000 in
/-- C5 fails as stated: with the auth response body {"hash":""} and 200
from both services, a request goes to the write path and the password of
its event is the empty string. Nor does a non-empty hash do in general: with
the auth response body {"hash":"\",\"x\":\""}, whose hash is the seven
characters `","x":"`, the write request is sent and the password of its event
is the empty string as well. -/
theorem SetPassword_writes_empty_hash :
    (demoServer.SetPassword (demoEnv (.ok (ok200 "\x7b\"hash\":\"\"\x7d")) (.ok (ok200 ""))) ()
      demoCtx ⟨7, "admin"⟩).sent.map Request.body =
      ["\x7b\"toHash\": \"admin\"\x7d",
       "\x7b\"user_id\":0,\"information\":\x7b\x7d,\"locked_fields\":\x7b\x7d,\"events\":[\x7b\"type\":\"update\",\"fqid\":\"user/7\",\"fields\":\x7b\"password\":\"\"\x7d\x7d]\x7d"] ∧
    callsTo datastorWritePath
      (demoServer.SetPassword (demoEnv (.ok (ok200 "\x7b\"hash\":\"\"\x7d")) (.ok (ok200 "")))
        () demoCtx ⟨7, "admin"⟩).sent = 1 ∧
    writtenPassword
      "\x7b\"user_id\":0,\"information\":\x7b\x7d,\"locked_fields\":\x7b\x7d,\"events\":[\x7b\"type\":\"update\",\"fqid\":\"user/7\",\"fields\":\x7b\"password\":\"\"\x7d\x7d]\x7d"
      = some "" ∧
    Decode ⟨"\x7b\"hash\":\"\\\",\\\"x\\\":\\\"\"\x7d", none⟩ = .ok "\",\"x\":\"" ∧
    (demoServer.SetPassword
      (demoEnv (.ok (ok200 "\x7b\"hash\":\"\\\",\\\"x\\\":\\\"\"\x7d")) (.ok (ok200 ""))) ()
      demoCtx ⟨7, "admin"⟩).sent =
      [hashRequest demoCtx demoConfig "admin",
        writeRequest demoCtx demoConfig 7 "\",\"x\":\""] ∧
    writtenPassword (writeRequest demoCtx demoConfig 7 "\",\"x\":\"").body = some "" :=
  ⟨rfl, by decide, rfl, rfl, rfl, rfl⟩

/-! ## Bodies of the requests for input that needs no escaping -/

/-- For a password of characters that need no JSON escaping, the body of
every request the hash step sends is a JSON text: the object with the single
member toHash whose value is the password. -/
theorem hashPassword_body_plain {σ : Type} (env : Env σ) (w : σ) (ctx : Context)
    (cfg : ServerConfig) (password : String) (r : Request)
    (hp : plainString password = true)
    (hr : r ∈ (hashPassword env w ctx cfg password).sent) :
    parseJSON r.body = some (.obj [("toHash", .str password)]) := by
  rcases hashPassword_sent env w ctx cfg password with h | h <;> rw [h] at hr
  · cases hr
  · rw [List.mem_singleton] at hr
    subst hr
    exact parseJSON_hashReqBody password hp

/-- The body of the hash request for the password admin. -/
theorem hashPassword_body_plain_witness :
    parseJSON (hashRequest demoCtx demoConfig "admin").body =
      some (.obj [("toHash", .str "admin")]) :=
  hashPassword_body_plain (demoEnv (.ok (ok200 (hashRespBody "H1"))) (.ok (ok200 ""))) ()
    demoCtx demoConfig "admin" (hashRequest demoCtx demoConfig "admin") (by decide) (by decide)

/-- For every user id and a hash of characters that need no JSON escaping,
the body of every request the write step sends is a JSON text: the event
envelope whose one event has the fqid "user/" followed by the decimal user
id and the fields object with the single member password, the hash. -/
theorem setPassword_body_plain {σ : Type} (env : Env σ) (w : σ) (ctx : Context)
    (cfg : ServerConfig) (userID : Int) (hash : String) (r : Request)
    (hp : plainString hash = true)
    (hr : r ∈ (setPassword env w ctx cfg userID hash).sent) :
    parseJSON r.body =
      some (.obj [("user_id", .num ['0']), ("information", .obj []),
        ("locked_fields", .obj []),
        ("events", .arr [.obj [("type", .str "update"),
          ("fqid", .str ("user/" ++ formatInt userID)),
          ("fields", .obj [("password", .str hash)])]])]) := by
  rcases setPassword_sent env w ctx cfg userID hash with h | h <;> rw [h] at hr
  · cases hr
  · rw [List.mem_singleton] at hr
    subst hr
    exact parseJSON_writeReqBody userID hash hp

/-- The body of the write request for the user 7 and the hash H1. -/
theorem setPassword_body_plain_witness :
    parseJSON (writeRequest demoCtx demoConfig 7 "H1").body =
      some (.obj [("user_id", .num ['0']), ("information", .obj []),
        ("locked_fields", .obj []),
        ("events", .arr [.obj [("type", .str "update"),
          ("fqid", .str ("user/" ++ formatInt 7)),
          ("fields", .obj [("password", .str "H1")])]])]) :=
  setPassword_body_plain (demoEnv (.ok (ok200 (hashRespBody "H1"))) (.ok (ok200 ""))) ()
    demoCtx demoConfig 7 "H1" (writeRequest demoCtx demoConfig 7 "H1") (by decide) (by decide)

end Manage
